import Mathlib

/-!
Verification of the sharp-seeker odds-monitoring core against its
natural-language specification.  The definitions below are a shallow
embedding of the Python source (`sharp_seeker/...`): timestamps are
rationals (the spec makes ISO-8601 string order equivalent to temporal
order), floats are rationals, SQL rows are list elements, Python dicts
are modelled by first-appearance key order with last-write-wins values,
and fallible code returns `Option`.
-/

namespace SharpSeeker

/-- Python `round(x, n)` on exact rationals: round half to even
(banker's rounding), at `n` decimal digits. -/
def pyRound (n : ℕ) (x : ℚ) : ℚ :=
  let y : ℚ := x * (10 : ℚ) ^ n
  let f : ℤ := Int.floor y
  let frac : ℚ := y - f
  let r : ℤ :=
    if frac < 1/2 then f
    else if frac > 1/2 then f + 1
    else if f % 2 = 0 then f else f + 1
  (r : ℚ) / (10 : ℚ) ^ n

/-- Stable insertion sort by a boolean "may go before" relation
(mirrors Python's stable `list.sort`). -/
def insertSorted {α : Type} (le : α → α → Bool) (x : α) : List α → List α
  | [] => [x]
  | y :: ys => if le x y then x :: y :: ys else y :: insertSorted le x ys

/-- Stable sort (insertion sort) with a boolean relation. -/
def sortBy {α : Type} (le : α → α → Bool) : List α → List α
  | [] => []
  | x :: xs => insertSorted le x (sortBy le xs)

/-- Python `max(x, *xs, key=key)` with a strict "greater" test on keys:
later elements replace the current best only when strictly greater, so
the first maximal element wins — exactly CPython's behaviour. -/
def listMaxBy {α κ : Type} (gt : κ → κ → Bool) (key : α → κ) (x : α) (xs : List α) : α :=
  xs.foldl (fun best y => if gt (key y) (key best) then y else best) x

/-- Keys of a Python dict built by repeated assignment: first-appearance
order, no duplicates. -/
def dictKeys {α κ : Type} [BEq κ] (f : α → κ) : List α → List κ
  | [] => []
  | r :: rs => f r :: dictKeys f (rs.filter (fun x => !(f x == f r)))
termination_by l => l.length
decreasing_by simpa using Nat.lt_succ_of_le (List.length_filter_le _ _)

/-- Value of a Python dict built by repeated assignment: the last row
written under the key wins. -/
def dictGet {α κ : Type} [BEq κ] (f : α → κ) (rows : List α) (k : κ) : Option α :=
  (rows.filter (fun r => f r == k)).getLast?

/-- Greatest element of a list of rationals (SQL `MAX(...)`), `none` on
the empty set. -/
def maxTime : List ℚ → Option ℚ
  | [] => none
  | t :: ts => some (ts.foldl max t)

/-! ## Data model (§3): OddsSnapshot rows and the SentAlert ledger -/

/-- One `odds_snapshots` row (`db/models.py` / spec §3 OddsSnapshot). -/
structure Row where
  event_id : String
  sport_key : String
  home_team : String
  away_team : String
  commence_time : ℚ
  bookmaker_key : String
  market_key : String
  outcome_name : String
  price : ℚ
  point : Option ℚ
  fetched_at : ℚ
deriving DecidableEq, Repr

/-- The snapshot-uniqueness key `(event_id, bookmaker_key, market_key,
outcome_name, fetched_at)` of spec §3. -/
def snapKey (r : Row) : String × String × String × String × ℚ :=
  (r.event_id, r.bookmaker_key, r.market_key, r.outcome_name, r.fetched_at)

/-- One `sent_alerts` row (spec §3 SentAlert). -/
structure Alert where
  event_id : String
  alert_type : String
  market_key : String
  outcome_name : String
  sent_at : ℚ
deriving DecidableEq, Repr

/-- The recognised numeric configuration (`config.py Settings`), with the
source defaults. -/
structure Settings where
  odds_api_monthly_credits : ℤ := 500
  steam_min_books : ℕ := 3
  steam_window_minutes : ℚ := 30
  rapid_spread_threshold : ℚ := 1/2
  rapid_ml_threshold : ℚ := 20
  pinnacle_spread_threshold : ℚ := 1
  pinnacle_ml_prob_threshold : ℚ := 3/100
  exchange_shift_threshold : ℚ := 5/100
  min_signal_strength : ℚ := 1/2
  alert_cooldown_minutes : ℚ := 60
deriving Repr

/-- The source defaults of `config.py`. -/
def defaultSettings : Settings := {}

/-! ## Repository query surface (`db/repository.py`) -/

/-- `Repository.get_snapshots_since`: rows of the event with
`fetched_at >= since`, ascending by `fetched_at`. -/
def getSnapshotsSince (store : List Row) (e : String) (since : ℚ) : List Row :=
  sortBy (fun a b => decide (a.fetched_at ≤ b.fetched_at))
    (store.filter (fun r => r.event_id == e && decide (since ≤ r.fetched_at)))

/-- The maximum `fetched_at` over an event's rows
(the subquery of `get_latest_snapshots`). -/
def latestTime (store : List Row) (e : String) : Option ℚ :=
  maxTime ((store.filter (fun r => r.event_id == e)).map (fun r => r.fetched_at))

/-- `Repository.get_latest_snapshots`: every row of the event at its
maximum `fetched_at`. -/
def getLatestSnapshots (store : List Row) (e : String) : List Row :=
  store.filter (fun r => r.event_id == e &&
    latestTime store e == some r.fetched_at)

/-- The inner `MAX(fetched_at)` of `get_previous_snapshots`: the greatest
`fetched_at < before` among the event's rows for one
`(bookmaker, market, outcome)` combination. -/
def prevAt (store : List Row) (e : String) (before : ℚ) (bm mk oc : String) : Option ℚ :=
  maxTime ((store.filter (fun r =>
    r.event_id == e && r.bookmaker_key == bm && r.market_key == mk &&
    r.outcome_name == oc && decide (r.fetched_at < before))).map (fun r => r.fetched_at))

/-- `Repository.get_previous_snapshots`: for each `(bookmaker, market,
outcome)` combination, the event row at the greatest `fetched_at`
strictly before `before` (the SQL join of `repository.py` lines 61-79). -/
def getPreviousSnapshots (store : List Row) (e : String) (before : ℚ) : List Row :=
  store.filter (fun s => s.event_id == e &&
    prevAt store e before s.bookmaker_key s.market_key s.outcome_name == some s.fetched_at)

/-- `Repository.get_distinct_event_ids_at`: event ids having a row at
exactly the given timestamp (first-appearance order). -/
def getDistinctEventIdsAt (store : List Row) (t : ℚ) : List String :=
  dictKeys (fun r => r.event_id) (store.filter (fun r => r.fetched_at == t))

/-- `Repository.was_alert_sent_recently` with an explicit `outcome_name`
(the variant the pipeline calls): some ledger row matches all four
identifiers and `sent_at >= now - cooldown_minutes`. -/
def wasAlertSentRecently (ledger : List Alert) (now : ℚ)
    (e ty mk oc : String) (cooldown : ℚ) : Bool :=
  ledger.any (fun a =>
    a.event_id == e && a.alert_type == ty && a.market_key == mk &&
    a.outcome_name == oc && decide (now - cooldown ≤ a.sent_at))

/-! ## Budget governor (`polling/budget.py`) -/

/-- `CREDITS_PER_POLL` (`polling/budget.py` line 15). -/
def CREDITS_PER_POLL : ℤ := 9

/-- `BudgetTracker.should_poll`, with the current balance passed in as
`get_credits_remaining` returns it (`none` when the ledger is empty). -/
def shouldPoll (monthly : ℤ) (remaining : Option ℤ) : Bool :=
  match remaining with
  | none => true
  | some r =>
    if (r : ℚ) ≤ (monthly : ℚ) * (20/100) then false
    else if r < CREDITS_PER_POLL then false
    else true

/-! ## Odds fetcher sport filtering (`api/odds_client.py`) -/

/-- One entry of the upstream active-sports list (`SportSchema`). -/
structure Sport where
  key : String
  active : Bool
  title : String
  has_outrights : Bool
deriving DecidableEq, Repr

/-- The sport keys `fetch_all_sports_odds` actually fetches odds for
(`odds_client.py` lines 98-105): configured keys that are members of
`{s.key for s in active if not s.has_outrights}`. -/
def fetchedSports (configured : List String) (sports : List Sport) : List String :=
  configured.filter (fun k =>
    ((sports.filter (fun s => !s.has_outrights)).map (fun s => s.key)).contains k)

/-! ## American odds → implied probability (`engine/exchange_monitor.py`) -/

/-- `american_to_implied_prob` (`exchange_monitor.py` lines 17-22). -/
def american_to_implied_prob (price : ℚ) : ℚ :=
  if price > 0 then 100 / (price + 100)
  else |price| / (|price| + 100)

/-! ## Grader (`analysis/grader.py`) -/

/-- One entry of a scores response (`{name, score}`). -/
structure ScoreEntry where
  name : String
  score : ℤ
deriving DecidableEq, Repr

/-- A completed game in a scores response. -/
structure Game where
  home_team : String
  away_team : String
  scores : List ScoreEntry
deriving DecidableEq, Repr

/-- The scores dict `{s["name"]: int(s["score"])}` looked up with
`.get(name, 0)`: last entry with the name wins, absent names score 0. -/
def scoreOf (g : Game) (name : String) : ℤ :=
  match (g.scores.filter (fun s => s.name == name)).getLast? with
  | some s => s.score
  | none => 0

/-- `ScoreGrader._grade_spread` (`grader.py` lines 155-181). -/
def gradeSpread (outcome_name : String) (g : Game) (point : ℚ) : String :=
  let home_score := scoreOf g g.home_team
  let away_score := scoreOf g g.away_team
  if outcome_name == g.home_team then
    let margin : ℚ := (home_score : ℚ) - (away_score : ℚ)
    if margin + point > 0 then "won"
    else if margin + point < 0 then "lost"
    else "push"
  else if outcome_name == g.away_team then
    let margin : ℚ := (away_score : ℚ) - (home_score : ℚ)
    if margin + point > 0 then "won"
    else if margin + point < 0 then "lost"
    else "push"
  else "push"

/-- `ScoreGrader._grade_h2h` (`grader.py` lines 139-153). -/
def gradeH2h (outcome_name : String) (g : Game) : String :=
  let home_score := scoreOf g g.home_team
  let away_score := scoreOf g g.away_team
  if home_score == away_score then "push"
  else
    let winner := if home_score > away_score then g.home_team else g.away_team
    if outcome_name == winner then "won" else "lost"

/-! ## Signals (`engine/base.py`) -/

/-- `SignalType` (`engine/base.py`). -/
inductive SignalType where
  | steam_move
  | rapid_change
  | pinnacle_divergence
  | reverse_line
  | exchange_shift
deriving DecidableEq, Repr

/-- The `.value` string of each `SignalType` member. -/
def SignalType.value : SignalType → String
  | .steam_move => "steam_move"
  | .rapid_change => "rapid_change"
  | .pinnacle_divergence => "pinnacle_divergence"
  | .reverse_line => "reverse_line"
  | .exchange_shift => "exchange_shift"

/-- One entry of a `book_details` / `value_books` list inside
`Signal.details`; fields absent from a given detector's dict are `none`. -/
structure BookEntry where
  bookmaker : String
  price : Option ℚ := none
  point : Option ℚ := none
  delta : Option ℚ := none
  current_line : Option ℚ := none
  implied_prob : Option ℚ := none
deriving DecidableEq, Repr

/-- The free-form `Signal.details` dict, modelled with one optional field
per key any detector writes; `none` means the key is absent. -/
structure Details where
  direction : Option String := none
  books_moved : Option ℕ := none
  avg_delta : Option ℚ := none
  book_details : Option (List BookEntry) := none
  value_books : Option (List BookEntry) := none
  bookmaker : Option String := none
  old_price : Option ℚ := none
  new_price : Option ℚ := none
  old_point : Option (Option ℚ) := none
  new_point : Option (Option ℚ) := none
  delta : Option ℚ := none
  us_book : Option String := none
  us_value : Option ℚ := none
  pinnacle_value : Option ℚ := none
  us_implied_prob : Option ℚ := none
  pinnacle_implied_prob : Option ℚ := none
  us_direction : Option String := none
  us_avg_delta : Option ℚ := none
  us_movers : Option (List String) := none
  pinnacle_direction : Option String := none
  pinnacle_delta : Option ℚ := none
  bet_direction : Option String := none
  old_implied_prob : Option ℚ := none
  new_implied_prob : Option ℚ := none
  shift : Option ℚ := none
deriving DecidableEq, Repr

/-- A detector output (`engine/base.py Signal`).  The human-readable
`description` string is presentational and not modelled. -/
structure Signal where
  signal_type : SignalType
  event_id : String
  sport_key : String
  home_team : String
  away_team : String
  market_key : String
  outcome_name : String
  strength : ℚ
  details : Details
deriving DecidableEq, Repr

/-- The `US_BOOKS` constant shared by the detectors. -/
def usBooks : List String :=
  ["draftkings", "fanduel", "betmgm", "caesars", "williamhill_us"]

/-- The delta field-selection rule shared by steam-move and reverse-line
(`price` for h2h, `point` otherwise, falling back to `price` when either
point is null) — `reverse_line.py _calc_delta` and the inline code of
`steam_move.py` lines 70-77. -/
def calcDelta (mk : String) (first last : Row) : ℚ :=
  if mk == "h2h" then last.price - first.price
  else
    match first.point, last.point with
    | some fp, some lp => lp - fp
    | _, _ => last.price - first.price

/-- `(sport_key, home_team, away_team)` of the first row, or blanks
(`steam_move.py meta.get(event_id, ("", "", ""))`). -/
def headMeta (snaps : List Row) : String × String × String :=
  match snaps.head? with
  | some r => (r.sport_key, r.home_team, r.away_team)
  | none => ("", "", "")

/-! ## Steam move detector (`engine/steam_move.py`) -/

/-- A group's per-book entries in window order
(rows of `(market, outcome, bookmaker)` sorted by `fetched_at`). -/
def bookEntries (snaps : List Row) (mk oc bm : String) : List Row :=
  sortBy (fun a b => decide (a.fetched_at ≤ b.fetched_at))
    (snaps.filter (fun r =>
      r.market_key == mk && r.outcome_name == oc && r.bookmaker_key == bm))

/-- First and last of a list when it has at least two elements. -/
def firstLast {α : Type} (l : List α) : Option (α × α) :=
  if l.length < 2 then none
  else
    match l.head?, l.getLast? with
    | some a, some b => some (a, b)
    | _, _ => none

/-- Distinct bookmakers of a `(market, outcome)` group, in first-appearance
order (the group's inner dict keys). -/
def groupBookKeys (snaps : List Row) (mk oc : String) : List String :=
  dictKeys (fun r => r.bookmaker_key)
    (snaps.filter (fun r => r.market_key == mk && r.outcome_name == oc))

/-- `steam_move.py` lines 62-80: per-book window deltas; books with fewer
than two rows or a zero delta are dropped. -/
def steamMoves (snaps : List Row) (mk oc : String) : List (String × ℚ) :=
  (groupBookKeys snaps mk oc).filterMap (fun bm =>
    match firstLast (bookEntries snaps mk oc bm) with
    | none => none
    | some (first, last) =>
      let d := calcDelta mk first last
      if d ≠ 0 then some (bm, d) else none)

/-- The unrounded steam-move strength
`min(1.0, len(aligned) / max(len(book_data), 1))`. -/
def steamStrengthRaw (aligned totalBooks : ℕ) : ℚ :=
  min 1 ((aligned : ℚ) / (max totalBooks 1 : ℕ))

/-- `SteamMoveDetector.detect` (`engine/steam_move.py`). -/
def steamDetect (st : Settings) (store : List Row) (e : String) (fetched_at : ℚ) :
    List Signal :=
  let windowStart := fetched_at - st.steam_window_minutes
  let snaps := getSnapshotsSince store e windowStart
  if snaps.isEmpty then [] else
  let meta := headMeta snaps
  let latest := getLatestSnapshots store e
  let currentLine := fun (mk oc bm : String) =>
    dictGet (fun r => (r.market_key, r.outcome_name, r.bookmaker_key)) latest (mk, oc, bm)
  (dictKeys (fun r => (r.market_key, r.outcome_name)) snaps).flatMap (fun k =>
    let mk := k.1
    let oc := k.2
    let moves := steamMoves snaps mk oc
    if moves.length < st.steam_min_books then [] else
    let up := moves.filter (fun m => decide (m.2 > 0))
    let down := moves.filter (fun m => decide (m.2 < 0))
    let aligned := if down.length > up.length then down else up
    if aligned.length < st.steam_min_books then [] else
    let direction := if down.length > up.length then "down" else "up"
    let avgDelta := (aligned.map (fun m => |m.2|)).sum / (aligned.length : ℚ)
    let strength := steamStrengthRaw aligned.length (groupBookKeys snaps mk oc).length
    let bookDetails := aligned.map (fun m =>
      match currentLine mk oc m.1 with
      | some cur =>
        { bookmaker := m.1, delta := some (pyRound 2 m.2),
          price := some cur.price, point := cur.point : BookEntry }
      | none => { bookmaker := m.1, delta := some (pyRound 2 m.2) : BookEntry })
    let movedBooks := aligned.map (fun m => m.1)
    let valueBooks := (groupBookKeys snaps mk oc).filterMap (fun bm =>
      if movedBooks.contains bm || !usBooks.contains bm then none
      else
        match currentLine mk oc bm with
        | some cur =>
          some { bookmaker := bm, price := some cur.price, point := cur.point : BookEntry }
        | none => none)
    [{ signal_type := .steam_move, event_id := e,
       sport_key := meta.1, home_team := meta.2.1, away_team := meta.2.2,
       market_key := mk, outcome_name := oc,
       strength := pyRound 2 strength,
       details := { direction := some direction,
                    books_moved := some aligned.length,
                    avg_delta := some (pyRound 2 avgDelta),
                    book_details := some bookDetails,
                    value_books := some valueBooks } }])

/-! ## Rapid change detector (`engine/rapid_change.py`) -/

/-- Python's `str.lower()` restricted to ASCII (the only characters the
outcome names use): lowercase every character of the string. -/
def strLower (s : String) : String := ⟨s.data.map Char.toLower⟩

/-- The value_books sort key of `rapid_change.py` (`_sort_key`). -/
def rapidSortKey (mk oc : String) (vb : BookEntry) : ℚ :=
  if mk == "h2h" then vb.price.getD 0
  else
    match vb.point with
    | none => 0
    | some pt =>
      if mk == "totals" && strLower oc == "over" then -pt else pt

/-- `RapidChangeDetector.detect` (`engine/rapid_change.py`). -/
def rapidDetect (st : Settings) (store : List Row) (e : String) (fetched_at : ℚ) :
    List Signal :=
  let latest := getLatestSnapshots store e
  let previous := getPreviousSnapshots store e fetched_at
  if latest.isEmpty || previous.isEmpty then [] else
  let prevOf := fun (bm mk oc : String) =>
    dictGet (fun r => (r.bookmaker_key, r.market_key, r.outcome_name)) previous (bm, mk, oc)
  let currentKeys := dictKeys (fun r => (r.market_key, r.outcome_name, r.bookmaker_key)) latest
  let currentLine := fun (mk oc bm : String) =>
    dictGet (fun r => (r.market_key, r.outcome_name, r.bookmaker_key)) latest (mk, oc, bm)
  let meta := headMeta (latest.filter (fun r =>
    (prevOf r.bookmaker_key r.market_key r.outcome_name).isSome))
  latest.filterMap (fun row =>
    match prevOf row.bookmaker_key row.market_key row.outcome_name with
    | none => none
    | some prev =>
      let mk := row.market_key
      let bm := row.bookmaker_key
      let oc := row.outcome_name
      let dtn : Option (ℚ × ℚ × ℚ) :=
        if mk == "h2h" then
          some (|row.price - prev.price|, st.rapid_ml_threshold, row.price)
        else
          match row.point, prev.point with
          | some rp, some pp => some (|rp - pp|, st.rapid_spread_threshold, rp)
          | _, _ => none
      match dtn with
      | none => none
      | some (delta, threshold, newVal) =>
        if delta < threshold then none else
        let strength := min 1 (delta / (threshold * 3))
        let valueBooks := currentKeys.filterMap (fun ck =>
          if ck.1 != mk || ck.2.1 != oc || !usBooks.contains ck.2.2 then none
          else
            match currentLine ck.1 ck.2.1 ck.2.2 with
            | none => none
            | some other =>
              if ck.2.2 == bm then
                some { bookmaker := ck.2.2, price := some other.price,
                       point := other.point : BookEntry }
              else
                let valsOf : Option (ℚ × ℚ) :=
                  if mk == "h2h" then some (other.price, prev.price)
                  else
                    match other.point with
                    | some op => some (op, prev.point.getD prev.price)
                    | none => none
                match valsOf with
                | none => none
                | some (otherVal, oldVal) =>
                  if |otherVal - oldVal| < |otherVal - newVal| then
                    some { bookmaker := ck.2.2, price := some other.price,
                           point := other.point : BookEntry }
                  else none)
        let sortedVB := sortBy
          (fun a b => decide (rapidSortKey mk oc a ≥ rapidSortKey mk oc b)) valueBooks
        some { signal_type := .rapid_change, event_id := e,
               sport_key := meta.1, home_team := meta.2.1, away_team := meta.2.2,
               market_key := mk, outcome_name := oc,
               strength := pyRound 2 strength,
               details := { bookmaker := some bm,
                            old_price := some prev.price,
                            new_price := some row.price,
                            old_point := some prev.point,
                            new_point := some row.point,
                            delta := some (pyRound 2 delta),
                            value_books := some sortedVB } })

/-! ## Pinnacle divergence detector (`engine/pinnacle_divergence.py`) -/

/-- `_us_has_better_value` (`pinnacle_divergence.py` lines 18-37). -/
def usHasBetterValue (mk oc : String) (usVal pinVal : ℚ) : Bool :=
  if mk == "h2h" then decide (usVal > pinVal)
  else if mk == "spreads" then decide (usVal > pinVal)
  else if mk == "totals" then
    if strLower oc == "over" then decide (usVal < pinVal)
    else decide (usVal > pinVal)
  else false

/-- `(us_val, pin_val, delta, threshold)` of the inner loop of
`PinnacleDivergenceDetector.detect`, `none` where the code `continue`s
(a spreads/totals row with a null point). -/
def pinnacleComparison (st : Settings) (mk : String) (usRow pinRow : Row) :
    Option (ℚ × ℚ × ℚ × ℚ) :=
  if mk == "h2h" then
    some (usRow.price, pinRow.price,
          |american_to_implied_prob usRow.price - american_to_implied_prob pinRow.price|,
          st.pinnacle_ml_prob_threshold)
  else
    match usRow.point, pinRow.point with
    | some up, some pp => some (up, pp, |up - pp|, st.pinnacle_spread_threshold)
    | _, _ => none

/-- The `(market, outcome)` group dict of `PinnacleDivergenceDetector.detect`
looked up at one bookmaker: the last latest-snapshot row of the group
written under that bookmaker key. -/
def groupRowOf (store : List Row) (e mk oc bm : String) : Option Row :=
  dictGet (fun r => r.bookmaker_key)
    ((getLatestSnapshots store e).filter
      (fun r => r.market_key == mk && r.outcome_name == oc)) bm

/-- The signal the inner loop of `PinnacleDivergenceDetector.detect` emits
for one US bookmaker against the Pinnacle row of the same market group
(`pinnacle_divergence.py` lines 62-101), `none` where the code `continue`s. -/
def pinnacleSignalFor (st : Settings) (e : String) (meta : String × String × String)
    (mk oc bm : String) (usRow pinRow : Row) : Option Signal :=
  match pinnacleComparison st mk usRow pinRow with
  | none => none
  | some (usVal, pinVal, delta, threshold) =>
    if delta < threshold then none
    else if !usHasBetterValue mk oc usVal pinVal then none
    else
      some { signal_type := .pinnacle_divergence, event_id := e,
             sport_key := meta.1, home_team := meta.2.1, away_team := meta.2.2,
             market_key := mk, outcome_name := oc,
             strength := pyRound 2 (min 1 (delta / (threshold * 3))),
             details :=
               { us_book := some bm,
                 us_value := some usVal,
                 pinnacle_value := some pinVal,
                 delta := some (pyRound (if mk == "h2h" then 4 else 2) delta),
                 us_implied_prob :=
                   if mk == "h2h" then
                     some (pyRound 4 (american_to_implied_prob usRow.price))
                   else none,
                 pinnacle_implied_prob :=
                   if mk == "h2h" then
                     some (pyRound 4 (american_to_implied_prob pinRow.price))
                   else none } }

/-- `PinnacleDivergenceDetector.detect` (`engine/pinnacle_divergence.py`). -/
def pinnacleDetect (st : Settings) (store : List Row) (e : String) : List Signal :=
  let latest := getLatestSnapshots store e
  if latest.isEmpty then [] else
  let meta := headMeta latest
  let groupBook := fun (mk oc bm : String) => groupRowOf store e mk oc bm
  (dictKeys (fun r => (r.market_key, r.outcome_name)) latest).flatMap (fun k =>
    let mk := k.1
    let oc := k.2
    match groupBook mk oc "pinnacle" with
    | none => []
    | some pinRow =>
      (groupBookKeys latest mk oc).filterMap (fun bm =>
        if !usBooks.contains bm then none
        else
          match groupBook mk oc bm with
          | none => none
          | some usRow => pinnacleSignalFor st e meta mk oc bm usRow pinRow))

/-! ## Reverse line movement detector (`engine/reverse_line.py`) -/

/-- `ReverseLineDetector.detect` (`engine/reverse_line.py`). -/
def reverseDetect (st : Settings) (store : List Row) (e : String) (fetched_at : ℚ) :
    List Signal :=
  let windowStart := fetched_at - st.steam_window_minutes
  let snaps := getSnapshotsSince store e windowStart
  if snaps.isEmpty then [] else
  let meta := headMeta snaps
  let latest := getLatestSnapshots store e
  let currentLine := fun (mk oc bm : String) =>
    dictGet (fun r => (r.market_key, r.outcome_name, r.bookmaker_key)) latest (mk, oc, bm)
  (dictKeys (fun r => (r.market_key, r.outcome_name)) snaps).flatMap (fun k =>
    let mk := k.1
    let oc := k.2
    match firstLast (bookEntries snaps mk oc "pinnacle") with
    | none => []
    | some (pinFirst, pinLast) =>
      let pinDelta := calcDelta mk pinFirst pinLast
      if pinDelta == 0 then [] else
      let usMovers := (groupBookKeys snaps mk oc).filterMap (fun bm =>
        if !usBooks.contains bm then none
        else
          match firstLast (bookEntries snaps mk oc bm) with
          | none => none
          | some (first, last) =>
            let d := calcDelta mk first last
            if d ≠ 0 then some (bm, d) else none)
      if usMovers.length < 2 then [] else
      let usAvg := (usMovers.map (fun m => m.2)).sum / (usMovers.length : ℚ)
      if (usAvg > 0 && pinDelta < 0) || (usAvg < 0 && pinDelta > 0) then
        let usDir := if usAvg > 0 then "up" else "down"
        let pinDir := if pinDelta > 0 then "up" else "down"
        let strength := min 1 ((|usAvg| + |pinDelta|) / 4)
        let valueBooks := (usMovers.map (fun m => m.1)).filterMap (fun bm =>
          match currentLine mk oc bm with
          | some cur =>
            some { bookmaker := bm, price := some cur.price, point := cur.point : BookEntry }
          | none => none)
        [{ signal_type := .reverse_line, event_id := e,
           sport_key := meta.1, home_team := meta.2.1, away_team := meta.2.2,
           market_key := mk, outcome_name := oc,
           strength := pyRound 2 strength,
           details := { us_direction := some usDir,
                        us_avg_delta := some (pyRound 2 usAvg),
                        us_movers := some (usMovers.map (fun m => m.1)),
                        pinnacle_direction := some pinDir,
                        pinnacle_delta := some (pyRound 2 pinDelta),
                        bet_direction := some pinDir,
                        value_books := some valueBooks } }]
      else [])

/-! ## Exchange monitor detector (`engine/exchange_monitor.py`) -/

/-- The exchange bookmaker key `BETFAIR_KEY`. -/
def betfairKey : String := "betfair_ex_eu"

/-- `ExchangeMonitorDetector.detect` (`engine/exchange_monitor.py`). -/
def exchangeDetect (st : Settings) (store : List Row) (e : String) (fetched_at : ℚ) :
    List Signal :=
  let latest := getLatestSnapshots store e
  let previous := getPreviousSnapshots store e fetched_at
  if latest.isEmpty || previous.isEmpty then [] else
  let prevBetfair := previous.filter (fun r => r.bookmaker_key == betfairKey)
  if prevBetfair.isEmpty then [] else
  let prevOf := fun (mk oc : String) =>
    dictGet (fun r => (r.market_key, r.outcome_name)) prevBetfair (mk, oc)
  let usCurrent := latest.filter (fun r => usBooks.contains r.bookmaker_key)
  let usKeys := dictKeys (fun r => (r.market_key, r.outcome_name, r.bookmaker_key)) usCurrent
  let usLine := fun (mk oc bm : String) =>
    dictGet (fun r => (r.market_key, r.outcome_name, r.bookmaker_key)) usCurrent (mk, oc, bm)
  let meta := headMeta latest
  latest.filterMap (fun row =>
    if row.bookmaker_key != betfairKey then none
    else if row.market_key != "h2h" then none
    else
      match prevOf row.market_key row.outcome_name with
      | none => none
      | some prev =>
        let oldProb := american_to_implied_prob prev.price
        let newProb := american_to_implied_prob row.price
        let shift := |newProb - oldProb|
        if shift < st.exchange_shift_threshold then none
        else
          let direction := if newProb > oldProb then "shortened" else "drifted"
          let strength := min 1 (shift / (15/100))
          let valueBooks := usKeys.filterMap (fun ck =>
            if ck.1 != row.market_key || ck.2.1 != row.outcome_name then none
            else
              match usLine ck.1 ck.2.1 ck.2.2 with
              | none => none
              | some usRow =>
                let usProb := american_to_implied_prob usRow.price
                if direction == "shortened" && decide (usProb < newProb) then
                  some { bookmaker := ck.2.2, current_line := some usRow.price,
                         implied_prob := some (pyRound 4 usProb) : BookEntry }
                else if direction == "drifted" && decide (usProb > newProb) then
                  some { bookmaker := ck.2.2, current_line := some usRow.price,
                         implied_prob := some (pyRound 4 usProb) : BookEntry }
                else none)
          some { signal_type := .exchange_shift, event_id := e,
                 sport_key := meta.1, home_team := meta.2.1, away_team := meta.2.2,
                 market_key := row.market_key, outcome_name := row.outcome_name,
                 strength := pyRound 2 strength,
                 details := { old_price := some prev.price,
                              new_price := some row.price,
                              old_implied_prob := some (pyRound 4 oldProb),
                              new_implied_prob := some (pyRound 4 newProb),
                              shift := some (pyRound 4 shift),
                              direction := some direction,
                              value_books := some valueBooks } })

/-! ## Detection pipeline (`engine/pipeline.py`) -/

/-- The fallback keeper rule of `_pick_best_signal`
(`max(sigs, key=lambda s: (len(value_books), strength))`). -/
def fallbackBest (s : Signal) (rest : List Signal) : Signal :=
  listMaxBy
    (fun a b => a.1 > b.1 || (a.1 == b.1 && decide (a.2 > b.2)))
    (fun x => ((x.details.value_books.getD []).length, x.strength))
    s rest

/-- `_pick_best_signal` (`pipeline.py` lines 21-74); `none` exactly on the
empty input, where the Python function raises. -/
def pickBestSignal : List Signal → Option Signal
  | [] => none
  | [s] => some s
  | s :: rest =>
    let sigs := s :: rest
    let market := s.market_key
    some (
      if s.signal_type == SignalType.reverse_line then
        match sigs.find? (fun x => decide (x.details.pinnacle_delta.getD 0 > 0)) with
        | some x => x
        | none => fallbackBest s rest
      else if s.signal_type == SignalType.steam_move then
        match sigs.find? (fun x =>
          let dir := x.details.direction.getD ""
          if market == "totals" then
            (strLower x.outcome_name == "over" && dir == "up") ||
            (strLower x.outcome_name == "under" && dir == "down")
          else dir == "down") with
        | some x => x
        | none => fallbackBest s rest
      else if s.signal_type == SignalType.exchange_shift then
        match sigs.find? (fun x => x.details.direction == some "shortened") with
        | some x => x
        | none => fallbackBest s rest
      else if s.signal_type == SignalType.rapid_change then
        listMaxBy (fun a b => decide (a > b)) (fun x => |x.details.delta.getD 0|) s rest
      else fallbackBest s rest)

/-- The grouping key of the mirror-side collapse:
`(event_id, signal_type.value, market_key)`. -/
def sigGroupKey (s : Signal) : String × String × String :=
  (s.event_id, s.signal_type.value, s.market_key)

/-- The mirror-side collapse of `pipeline.py` lines 117-138: group by
`sigGroupKey`, keep groups of one, collapse larger groups with
`_pick_best_signal`. -/
def dedupSignals (sigs : List Signal) : List Signal :=
  (dictKeys sigGroupKey sigs).flatMap (fun k =>
    let g := sigs.filter (fun s => sigGroupKey s == k)
    if g.length ≤ 1 then g
    else
      match pickBestSignal g with
      | some best => [best]
      | none => [])

/-- All detector outputs for the events of a fetch cycle
(`pipeline.py` lines 91-105, detectors in `__init__` order). -/
def allDetectorSignals (st : Settings) (store : List Row) (t : ℚ) : List Signal :=
  (getDistinctEventIdsAt store t).flatMap (fun e =>
    steamDetect st store e t ++ rapidDetect st store e t ++
    pinnacleDetect st store e ++ reverseDetect st store e t ++
    exchangeDetect st store e t)

/-- `DetectionPipeline.run` (`pipeline.py` lines 89-162): detect, filter by
minimum strength, collapse mirror sides, then drop signals whose
`(event_id, signal_type, market_key, outcome_name)` was alerted within the
cooldown window (`now` is the wall clock of the cooldown query). -/
def pipelineRun (st : Settings) (store : List Row) (ledger : List Alert)
    (now t : ℚ) : List Signal :=
  let strong := (allDetectorSignals st store t).filter
    (fun s => decide (s.strength ≥ st.min_signal_strength))
  (dedupSignals strong).filter (fun s =>
    !wasAlertSentRecently ledger now s.event_id s.signal_type.value
      s.market_key s.outcome_name st.alert_cooldown_minutes)

/-! ## Refinement-side definitions for the Pinnacle-divergence contract

These definitions follow the specification's words (§4.4.3 and the
§4.4.6 polarity table), to be compared with the code-side
`pinnacleDetect`. -/

/-- Spec §4.4.3: the divergence measure — implied-probability difference
for h2h, absolute point difference for spreads/totals. -/
def specDelta (mk : String) (usRow pinRow : Row) : ℚ :=
  if mk = "h2h" then
    |american_to_implied_prob usRow.price - american_to_implied_prob pinRow.price|
  else |usRow.point.getD 0 - pinRow.point.getD 0|

/-- Spec §4.4.3: the market's threshold. -/
def specThreshold (st : Settings) (mk : String) : ℚ :=
  if mk = "h2h" then st.pinnacle_ml_prob_threshold else st.pinnacle_spread_threshold

/-- Spec §4.4.6 polarity table: when the US line is better for the bettor
than the reference line. -/
def specBetter (mk oc : String) (usRow pinRow : Row) : Prop :=
  if mk = "h2h" then pinRow.price < usRow.price
  else if mk = "spreads" then pinRow.point.getD 0 < usRow.point.getD 0
  else if oc = "Over" then usRow.point.getD 0 < pinRow.point.getD 0
  else pinRow.point.getD 0 < usRow.point.getD 0

/-- The data-model row predicate used to state C5: an event row of the
given `(bookmaker, market, outcome)` combination strictly before a cutoff. -/
def priorRow (e : String) (before : ℚ) (bm mk oc : String) (r : Row) : Prop :=
  r.event_id = e ∧ r.bookmaker_key = bm ∧ r.market_key = mk ∧
  r.outcome_name = oc ∧ r.fetched_at < before

/-- The rows `get_previous_snapshots` returns for one
`(bookmaker, market, outcome)` combination. -/
def comboPrev (store : List Row) (e : String) (before : ℚ) (bm mk oc : String) :
    List Row :=
  (getPreviousSnapshots store e before).filter
    (fun r => r.bookmaker_key == bm && r.market_key == mk && r.outcome_name == oc)

/-- The row set the inner `MAX(fetched_at)` of `get_previous_snapshots`
ranges over (the combination's event rows strictly before the cutoff). -/
def priorFilter (store : List Row) (e : String) (before : ℚ) (bm mk oc : String) :
    List Row :=
  store.filter (fun r =>
    r.event_id == e && r.bookmaker_key == bm && r.market_key == mk &&
    r.outcome_name == oc && decide (r.fetched_at < before))

/-! ## Concrete cycle data used by counterexamples and witnesses -/

/-- Shorthand for an NBA snapshot row of the concrete stores below. -/
def mkRow (e bm mk oc : String) (price : ℚ) (pt : Option ℚ) (t : ℚ) : Row :=
  { event_id := e, sport_key := "basketball_nba", home_team := "Lakers",
    away_team := "Celtics", commence_time := 1000, bookmaker_key := bm,
    market_key := mk, outcome_name := oc, price := price, point := pt,
    fetched_at := t }

/-- Settings for the C1 scenario: defaults except that the rapid-change
thresholds are raised so only the steam detector can fire, and the
strength floor is the whole 1. -/
def c1Settings : Settings :=
  { rapid_spread_threshold := 5, rapid_ml_threshold := 100,
    min_signal_strength := 1 }

/-- A store with two poll cycles (t=0 and t=20) of a spreads market whose
Lakers side is static while three US books move the Celtics side from
+4 to +5: at t=20 only the Celtics side fires a steam move. -/
def c1Store : List Row :=
  [ mkRow "ev1" "draftkings" "spreads" "Lakers" (-110) (some (-4)) 0,
    mkRow "ev1" "fanduel" "spreads" "Lakers" (-110) (some (-4)) 0,
    mkRow "ev1" "betmgm" "spreads" "Lakers" (-110) (some (-4)) 0,
    mkRow "ev1" "draftkings" "spreads" "Celtics" (-110) (some 4) 0,
    mkRow "ev1" "fanduel" "spreads" "Celtics" (-110) (some 4) 0,
    mkRow "ev1" "betmgm" "spreads" "Celtics" (-110) (some 4) 0,
    mkRow "ev1" "draftkings" "spreads" "Lakers" (-110) (some (-4)) 20,
    mkRow "ev1" "fanduel" "spreads" "Lakers" (-110) (some (-4)) 20,
    mkRow "ev1" "betmgm" "spreads" "Lakers" (-110) (some (-4)) 20,
    mkRow "ev1" "draftkings" "spreads" "Celtics" (-110) (some 5) 20,
    mkRow "ev1" "fanduel" "spreads" "Celtics" (-110) (some 5) 20,
    mkRow "ev1" "betmgm" "spreads" "Celtics" (-110) (some 5) 20 ]

/-- A SentAlert ledger holding a steam-move alert for the Lakers side of
the `c1Store` spreads market, recorded at t=20. -/
def c1Ledger : List Alert := [⟨"ev1", "steam_move", "spreads", "Lakers", 20⟩]

/-- The single signal `pipelineRun` returns on `c1Store` with the Lakers
alert in the ledger: a Celtics steam move. -/
def c1Sig : Signal :=
  { signal_type := .steam_move, event_id := "ev1",
    sport_key := "basketball_nba", home_team := "Lakers", away_team := "Celtics",
    market_key := "spreads", outcome_name := "Celtics", strength := 1,
    details := { direction := some "up", books_moved := some 3,
                 avg_delta := some 1,
                 book_details := some
                   [ { bookmaker := "draftkings", price := some (-110),
                       point := some 5, delta := some 1 },
                     { bookmaker := "fanduel", price := some (-110),
                       point := some 5, delta := some 1 },
                     { bookmaker := "betmgm", price := some (-110),
                       point := some 5, delta := some 1 } ],
                 value_books := some [] } }

/-- Settings for the C2 scenario: the minimum signal strength sits
exactly on the rounded steam strength 0.43 of a 3-of-7-book move, and the
rapid-change thresholds are raised so only the steam detector can fire. -/
def c2Settings : Settings :=
  { min_signal_strength := 43/100, rapid_spread_threshold := 5,
    rapid_ml_threshold := 100 }

/-- A store where 3 of 7 books move the Celtics spread between t=0 and
t=20: the steam strength is 3/7 ≈ 0.4286, rounded to 0.43 on the signal. -/
def c2Store : List Row :=
  [ mkRow "ev2" "draftkings" "spreads" "Celtics" (-110) (some 4) 0,
    mkRow "ev2" "fanduel" "spreads" "Celtics" (-110) (some 4) 0,
    mkRow "ev2" "betmgm" "spreads" "Celtics" (-110) (some 4) 0,
    mkRow "ev2" "caesars" "spreads" "Celtics" (-110) (some 4) 0,
    mkRow "ev2" "williamhill_us" "spreads" "Celtics" (-110) (some 4) 0,
    mkRow "ev2" "bka" "spreads" "Celtics" (-110) (some 4) 0,
    mkRow "ev2" "bkb" "spreads" "Celtics" (-110) (some 4) 0,
    mkRow "ev2" "draftkings" "spreads" "Celtics" (-110) (some 5) 20,
    mkRow "ev2" "fanduel" "spreads" "Celtics" (-110) (some 5) 20,
    mkRow "ev2" "betmgm" "spreads" "Celtics" (-110) (some 5) 20,
    mkRow "ev2" "caesars" "spreads" "Celtics" (-110) (some 4) 20,
    mkRow "ev2" "williamhill_us" "spreads" "Celtics" (-110) (some 4) 20,
    mkRow "ev2" "bka" "spreads" "Celtics" (-110) (some 4) 20,
    mkRow "ev2" "bkb" "spreads" "Celtics" (-110) (some 4) 20 ]

/-- The signal returned on `c2Store` under `c2Settings`: its strength
field carries the rounded value 0.43 of the raw strength 3/7. -/
def c2Sig : Signal :=
  { signal_type := .steam_move, event_id := "ev2",
    sport_key := "basketball_nba", home_team := "Lakers", away_team := "Celtics",
    market_key := "spreads", outcome_name := "Celtics", strength := 43/100,
    details := { direction := some "up", books_moved := some 3,
                 avg_delta := some 1,
                 book_details := some
                   [ { bookmaker := "draftkings", price := some (-110),
                       point := some 5, delta := some 1 },
                     { bookmaker := "fanduel", price := some (-110),
                       point := some 5, delta := some 1 },
                     { bookmaker := "betmgm", price := some (-110),
                       point := some 5, delta := some 1 } ],
                 value_books := some
                   [ { bookmaker := "caesars", price := some (-110),
                       point := some 4 },
                     { bookmaker := "williamhill_us", price := some (-110),
                       point := some 4 } ] } }

/-- A single-cycle h2h store where Pinnacle posts Lakers -150 while
BetMGM posts Lakers -110 (a 7.6-point implied-probability divergence). -/
def c8Store : List Row :=
  [ mkRow "ev8" "pinnacle" "h2h" "Lakers" (-150) none 10,
    mkRow "ev8" "betmgm" "h2h" "Lakers" (-110) none 10,
    mkRow "ev8" "pinnacle" "h2h" "Celtics" (130) none 10,
    mkRow "ev8" "betmgm" "h2h" "Celtics" (100) none 10 ]

/-- The inactive, non-outright sports-list entry of the C4 counterexample. -/
def c4Sport : Sport :=
  { key := "soccer_x", active := false, title := "X", has_outrights := false }

/-- A finished game for the grader witnesses: neither listed score names
the home team. -/
def c10Game : Game :=
  { home_team := "Lakers", away_team := "Celtics",
    scores := [⟨"Celtics", 100⟩] }

/-! ## C3: the budget gate -/

/-- C3 counterexample: with a monthly limit of 40 credits (20% threshold
= 8) and exactly `CREDITS_PER_POLL = 9` credits remaining, `should_poll`
returns true, although 9 is not strictly greater than
`max(20% of monthly, credits_per_poll) = 9` as the claim requires. -/
theorem C3_counterexample :
    shouldPoll 40 (some 9) = true ∧
    ¬((9 : ℚ) > max ((40 : ℚ) * (20/100)) ((CREDITS_PER_POLL : ℤ) : ℚ)) := by
  constructor
  · norm_num [shouldPoll, CREDITS_PER_POLL]
  · rw [CREDITS_PER_POLL]
    norm_num

/-- C3 (amended): `should_poll()` returns true exactly when no ledger row
exists yet, or when `credits_remaining` is strictly above 20% of the
monthly limit and at least (not strictly above) `CREDITS_PER_POLL`. -/
theorem C3_theorem (monthly : ℤ) (r : Option ℤ) :
    shouldPoll monthly r = true ↔
      r = none ∨ ∃ n : ℤ, r = some n ∧
        (monthly : ℚ) * (20/100) < (n : ℚ) ∧ CREDITS_PER_POLL ≤ n := by
  cases r with
  | none => simp [shouldPoll]
  | some n =>
    simp only [shouldPoll, CREDITS_PER_POLL]
    by_cases h1 : (n : ℚ) ≤ (monthly : ℚ) * (20/100)
    · rw [if_pos h1]
      constructor
      · intro h
        exact absurd h Bool.false_ne_true
      · rintro (h | ⟨m, hm, hgt, hge⟩)
        · exact absurd h (Option.some_ne_none n)
        · obtain rfl : m = n := (Option.some_inj.mp hm).symm
          exact absurd hgt (not_lt.mpr h1)
    · rw [if_neg h1]
      by_cases h2 : n < 9
      · rw [if_pos h2]
        constructor
        · intro h
          exact absurd h Bool.false_ne_true
        · rintro (h | ⟨m, hm, hgt, hge⟩)
          · exact absurd h (Option.some_ne_none n)
          · obtain rfl : m = n := (Option.some_inj.mp hm).symm
            exact absurd hge (not_le.mpr h2)
      · rw [if_neg h2]
        constructor
        · intro _
          exact Or.inr ⟨n, rfl, not_le.mp h1, not_lt.mp h2⟩
        · intro _
          rfl

/-! ## C4: sport filtering in the odds fetcher -/

/-- C4 counterexample: a configured sport whose active-sports entry has
`active = false` but `has_outrights = false` is still fetched — the
`active` flag is never consulted. -/
theorem C4_counterexample :
    c4Sport.active = false ∧
    fetchedSports ["soccer_x"] [c4Sport] = ["soccer_x"] := by
  constructor
  · rfl
  · decide

/-- C4 (amended): a configured sport key is fetched exactly when the
active-sports response contains an entry with that key whose
`has_outrights` flag is false; the entry's `active` flag plays no role. -/
theorem C4_theorem (configured : List String) (sports : List Sport) (k : String) :
    k ∈ fetchedSports configured sports ↔
      k ∈ configured ∧ ∃ s ∈ sports, s.key = k ∧ s.has_outrights = false := by
  simp only [fetchedSports, List.mem_filter, List.elem_iff,
    List.mem_map, List.mem_filter]
  constructor
  · rintro ⟨hc, s, ⟨hs, hout⟩, hk⟩
    exact ⟨hc, s, hs, hk, by simpa using hout⟩
  · rintro ⟨hc, s, hs, hk, hout⟩
    exact ⟨hc, s, ⟨hs, by simp [hout]⟩, hk⟩

/-! ## C6: monotonicity of the American-odds conversion -/

/-- C6 counterexample: −100 and +100 are both American odds, −100 < 100,
yet both convert to implied probability 1/2 — the conversion is not
strictly monotone on the pair (−100, +100). -/
theorem C6_counterexample :
    ((-100 : ℚ) < 100) ∧
    american_to_implied_prob 100 = 1/2 ∧
    american_to_implied_prob (-100) = 1/2 ∧
    ¬(american_to_implied_prob 100 < american_to_implied_prob (-100)) := by
  have e1 : american_to_implied_prob 100 = 1/2 := by
    rw [american_to_implied_prob]
    norm_num
  have e2 : american_to_implied_prob (-100) = 1/2 := by
    rw [american_to_implied_prob]
    norm_num
  refine ⟨by norm_num, e1, e2, ?_⟩
  rw [e1, e2]
  exact lt_irrefl _

/-- C6 (amended): on prices of magnitude at least 100 (all real American
odds), the conversion is antitone, and strictly so except at the single
pair (−100, +100), where both sides convert to exactly 1/2. -/
theorem C6_theorem (p1 p2 : ℚ) (h1 : 100 ≤ |p1|) (h2 : 100 ≤ |p2|) (h : p1 < p2) :
    american_to_implied_prob p2 ≤ american_to_implied_prob p1 ∧
    (american_to_implied_prob p2 = american_to_implied_prob p1 ↔
      p1 = -100 ∧ p2 = 100) := by
  rcases le_abs.mp h1 with hp1 | hp1
  · -- 100 ≤ p1 < p2: both on the positive branch, strictly decreasing
    have hp2 : (100 : ℚ) ≤ p2 := le_of_lt (lt_of_le_of_lt hp1 h)
    have e1 : american_to_implied_prob p1 = 100 / (p1 + 100) := by
      rw [american_to_implied_prob, if_pos (by linarith)]
    have e2 : american_to_implied_prob p2 = 100 / (p2 + 100) := by
      rw [american_to_implied_prob, if_pos (by linarith)]
    have hlt : american_to_implied_prob p2 < american_to_implied_prob p1 := by
      rw [e1, e2]
      apply div_lt_div_of_pos_left (by norm_num) (by linarith) (by linarith)
    refine ⟨le_of_lt hlt, ?_⟩
    constructor
    · intro heq
      exact absurd heq (ne_of_lt hlt)
    · rintro ⟨ha, -⟩
      exact absurd hp1 (by rw [ha]; norm_num)
  · -- p1 ≤ -100: the absolute-value branch
    have hp1' : p1 ≤ -100 := by linarith
    have e1 : american_to_implied_prob p1 = -p1 / (-p1 + 100) := by
      rw [american_to_implied_prob, if_neg (by linarith), abs_of_nonpos (by linarith)]
    rcases le_abs.mp h2 with hp2 | hp2
    · -- p1 ≤ -100 and 100 ≤ p2: values squeeze around 1/2
      have e2 : american_to_implied_prob p2 = 100 / (p2 + 100) := by
        rw [american_to_implied_prob, if_pos (by linarith)]
      have hhi : american_to_implied_prob p2 ≤ 1/2 := by
        rw [e2, div_le_iff₀ (by linarith)]
        linarith
      have hlo2 : (1/2 : ℚ) ≤ american_to_implied_prob p1 := by
        rw [e1, le_div_iff₀ (by linarith)]
        linarith
      refine ⟨le_trans hhi hlo2, ?_⟩
      constructor
      · intro heq
        have hq2 : american_to_implied_prob p2 = 1/2 := le_antisymm hhi (heq ▸ hlo2)
        have hq1 : american_to_implied_prob p1 = 1/2 := by rw [← heq, hq2]
        constructor
        · rw [e1, div_eq_iff (by linarith : (-p1 + 100) ≠ 0)] at hq1
          linarith
        · rw [e2, div_eq_iff (by linarith : (p2 + 100) ≠ 0)] at hq2
          linarith
      · rintro ⟨ha, hb⟩
        subst ha
        subst hb
        rw [e1, e2]
        norm_num
    · -- p1 < p2 ≤ -100: both on the negative branch, strictly decreasing
      have hp2' : p2 ≤ -100 := by linarith
      have e2 : american_to_implied_prob p2 = -p2 / (-p2 + 100) := by
        rw [american_to_implied_prob, if_neg (by linarith), abs_of_nonpos (by linarith)]
      have hlt : american_to_implied_prob p2 < american_to_implied_prob p1 := by
        rw [e1, e2, div_lt_div_iff₀ (by linarith) (by linarith)]
        nlinarith
      refine ⟨le_of_lt hlt, ?_⟩
      constructor
      · intro heq
        exact absurd heq (ne_of_lt hlt)
      · rintro ⟨-, hb⟩
        exact absurd hp2' (by rw [hb]; norm_num)

/-- C6 witness: the amended antitonicity applied at the concrete price
pair (−110, +120). -/
theorem C6_theorem_witness :
    american_to_implied_prob 120 ≤ american_to_implied_prob (-110) ∧
    (american_to_implied_prob 120 = american_to_implied_prob (-110) ↔
      (-110 : ℚ) = -100 ∧ (120 : ℚ) = 100) :=
  C6_theorem (-110) 120 (by norm_num) (by norm_num) (by norm_num)

/-! ## C10: totality of spread grading -/

/-- C10: a team name absent from the scores list contributes score 0; an
outcome matching neither team grades to "push"; and spread grading always
returns one of "won", "lost", "push" — it is total. -/
theorem C10_theorem (g : Game) (outcome : String) (point : ℚ)
    (habs : ∀ s ∈ g.scores, s.name ≠ g.home_team)
    (hout1 : outcome ≠ g.home_team) (hout2 : outcome ≠ g.away_team) :
    scoreOf g g.home_team = 0 ∧
    gradeSpread outcome g point = "push" ∧
    ∀ (oc2 : String) (g2 : Game) (pt2 : ℚ),
      gradeSpread oc2 g2 pt2 = "won" ∨ gradeSpread oc2 g2 pt2 = "lost" ∨
      gradeSpread oc2 g2 pt2 = "push" := by
  refine ⟨?_, ?_, ?_⟩
  · rw [scoreOf]
    have hnil : g.scores.filter (fun s => s.name == g.home_team) = [] := by
      rw [List.filter_eq_nil_iff]
      intro s hs
      simpa using habs s hs
    rw [hnil]
    rfl
  · simp only [gradeSpread]
    rw [if_neg (by simpa using hout1), if_neg (by simpa using hout2)]
  · intro oc2 g2 pt2
    simp only [gradeSpread]
    split_ifs <;> simp

/-- C10 witness: a game whose scores list omits the home team, graded on
an outcome naming neither team. -/
theorem C10_theorem_witness :
    scoreOf c10Game c10Game.home_team = 0 ∧
    gradeSpread "Nuggets" c10Game 3 = "push" ∧
    ∀ (oc2 : String) (g2 : Game) (pt2 : ℚ),
      gradeSpread oc2 g2 pt2 = "won" ∨ gradeSpread oc2 g2 pt2 = "lost" ∨
      gradeSpread oc2 g2 pt2 = "push" :=
  C10_theorem c10Game "Nuggets" 3 (by decide) (by decide) (by decide)

/-! ## Evaluation lemmas for the concrete stores -/

/-- Pair `==` unfolds componentwise (used to evaluate dict keys). -/
theorem prodBeqEval {a b : Type} [BEq a] [BEq b] (p q : a × b) :
    (p == q) = (p.1 == q.1 && p.2 == q.2) := by
  cases p
  cases q
  rfl

/-- Arithmetic fact for the steam window cutoff. -/
theorem qpWindow : (20:ℚ) - 30 = -10 := by norm_num

/-- Arithmetic fact for the Celtics point move. -/
theorem qpMove : (5:ℚ) - 4 = 1 := by norm_num

/-- Arithmetic facts for the three-book average delta. -/
theorem qpSumA : (1:ℚ) + 1 = 2 := by norm_num

/-- Second summand fact of the average delta. -/
theorem qpSumB : (1:ℚ) + 2 = 3 := by norm_num

/-- Rounding a whole strength is the identity. -/
theorem pyRoundOne : pyRound 2 (1:ℚ) = 1 := by norm_num [pyRound]

/-- The 3-of-7 steam strength rounds up to 0.43. -/
theorem pyRoundThreeSevenths : pyRound 2 ((3:ℚ)/7) = 43/100 := by
  norm_num [pyRound]

/-- A full-strength signal passes the default 0.5 strength floor. -/
theorem qdStrHalf : decide ((1:ℚ) ≥ 1/2) = true := by norm_num

/-- The rounded 0.43 strength passes a 0.43 strength floor. -/
theorem qdStr43 : decide ((43:ℚ)/100 ≥ 43/100) = true := by norm_num

/-- The 3-of-7 raw strength is `min 1 (3/7) = 3/7`. -/
theorem qpMin37 : min (1:ℚ) (3/7) = 3/7 := by norm_num

/-- A t=20 alert is inside a 60-minute cooldown ending at t=20. -/
theorem qdCool : decide ((20:ℚ) - 60 ≤ 20) = true := by norm_num

/-- The cooldown cutoff of the concrete scenarios. -/
theorem qpCoolSub : (20:ℚ) - 60 = -40 := by norm_num

set_option maxHeartbeats 1000000 in
/-- The steam window of `c1Store` at t=20 holds the whole store. -/
theorem c1_since :
    getSnapshotsSince c1Store "ev1" (20 - c1Settings.steam_window_minutes) =
      c1Store := by
  simp [getSnapshotsSince, sortBy, insertSorted, c1Store, mkRow, c1Settings,
    qpWindow]

set_option maxHeartbeats 1000000 in
/-- The latest `c1Store` snapshots are the six rows at t=20. -/
theorem c1_latest : getLatestSnapshots c1Store "ev1" = c1Store.drop 6 := by
  simp [getLatestSnapshots, latestTime, maxTime, c1Store, mkRow]

set_option maxHeartbeats 2000000 in
set_option maxRecDepth 10000 in
/-- The previous `c1Store` snapshots before t=20 are the six rows at t=0. -/
theorem c1_prev : getPreviousSnapshots c1Store "ev1" 20 = c1Store.take 6 := by
  simp [getPreviousSnapshots, prevAt, maxTime, c1Store, mkRow]

/-- The only event at t=20 in `c1Store` is ev1. -/
theorem c1_events : getDistinctEventIdsAt c1Store 20 = ["ev1"] := by
  simp [getDistinctEventIdsAt, dictKeys, c1Store, mkRow]

set_option maxHeartbeats 4000000 in
set_option maxRecDepth 10000 in
/-- The steam detector fires exactly the Celtics-side signal on `c1Store`. -/
theorem c1_steam : steamDetect c1Settings c1Store "ev1" 20 = [c1Sig] := by
  simp only [steamDetect]
  rw [c1_since, c1_latest]
  simp [dictKeys, dictGet, groupBookKeys, bookEntries, steamMoves, firstLast,
    calcDelta, steamStrengthRaw, headMeta, sortBy, insertSorted, usBooks,
    c1Settings, c1Store, mkRow, c1Sig, prodBeqEval, qpMove, qpSumA, qpSumB,
    pyRoundOne]

set_option maxHeartbeats 4000000 in
set_option maxRecDepth 10000 in
/-- The rapid-change detector is silent on `c1Store` under `c1Settings`. -/
theorem c1_rapid : rapidDetect c1Settings c1Store "ev1" 20 = [] := by
  simp only [rapidDetect]
  rw [c1_latest, c1_prev]
  simp [dictKeys, dictGet, rapidSortKey, headMeta, sortBy, insertSorted,
    usBooks, c1Settings, c1Store, mkRow, prodBeqEval, qpMove]

set_option maxHeartbeats 1000000 in
/-- The Pinnacle-divergence detector is silent on `c1Store` (no Pinnacle rows). -/
theorem c1_pinn : pinnacleDetect c1Settings c1Store "ev1" = [] := by
  simp only [pinnacleDetect, groupRowOf]
  rw [c1_latest]
  simp [dictGet, dictKeys, groupBookKeys, headMeta, usBooks, c1Settings,
    c1Store, mkRow, prodBeqEval]

set_option maxHeartbeats 4000000 in
set_option maxRecDepth 100000 in
/-- The reverse-line detector is silent on `c1Store` (no Pinnacle rows). -/
theorem c1_rev : reverseDetect c1Settings c1Store "ev1" 20 = [] := by
  simp only [reverseDetect]
  rw [c1_since, c1_latest]
  simp [dictKeys, dictGet, groupBookKeys, bookEntries, firstLast, calcDelta,
    headMeta, sortBy, insertSorted, usBooks, c1Settings, c1Store, mkRow,
    prodBeqEval]

set_option maxHeartbeats 2000000 in
set_option maxRecDepth 100000 in
/-- The exchange detector is silent on `c1Store` (no Betfair rows). -/
theorem c1_exch : exchangeDetect c1Settings c1Store "ev1" 20 = [] := by
  simp only [exchangeDetect]
  rw [c1_latest, c1_prev]
  simp [dictKeys, dictGet, headMeta, usBooks, betfairKey, c1Settings, c1Store,
    mkRow, prodBeqEval]

set_option maxHeartbeats 1000000 in
/-- On `c1Store` with the Lakers alert recorded, the pipeline still returns
the Celtics steam-move signal. -/
theorem c1_run_eq : pipelineRun c1Settings c1Store c1Ledger 20 20 = [c1Sig] := by
  simp only [pipelineRun, allDetectorSignals]
  rw [c1_events]
  simp only [List.flatMap_cons, List.flatMap_nil, List.append_nil]
  rw [c1_steam, c1_rapid, c1_pinn, c1_rev, c1_exch]
  simp [dedupSignals, dictKeys, sigGroupKey, pickBestSignal,
    wasAlertSentRecently, c1Ledger, c1Sig, SignalType.value, c1Settings,
    prodBeqEval, qpCoolSub]

set_option maxHeartbeats 1000000 in
/-- The steam window of `c2Store` at t=20 holds the whole store. -/
theorem c2_since :
    getSnapshotsSince c2Store "ev2" (20 - c2Settings.steam_window_minutes) =
      c2Store := by
  simp [getSnapshotsSince, sortBy, insertSorted, c2Store, mkRow, c2Settings,
    qpWindow]

set_option maxHeartbeats 1000000 in
/-- The latest `c2Store` snapshots are the seven rows at t=20. -/
theorem c2_latest : getLatestSnapshots c2Store "ev2" = c2Store.drop 7 := by
  simp [getLatestSnapshots, latestTime, maxTime, c2Store, mkRow]

set_option maxHeartbeats 4000000 in
set_option maxRecDepth 100000 in
/-- The previous `c2Store` snapshots before t=20 are the seven rows at t=0. -/
theorem c2_prev : getPreviousSnapshots c2Store "ev2" 20 = c2Store.take 7 := by
  simp [getPreviousSnapshots, prevAt, maxTime, c2Store, mkRow]

/-- The only event at t=20 in `c2Store` is ev2. -/
theorem c2_events : getDistinctEventIdsAt c2Store 20 = ["ev2"] := by
  simp [getDistinctEventIdsAt, dictKeys, c2Store, mkRow]

set_option maxHeartbeats 8000000 in
set_option maxRecDepth 100000 in
/-- The steam detector fires the 3-of-7-book Celtics signal on `c2Store`. -/
theorem c2_steam : steamDetect c2Settings c2Store "ev2" 20 = [c2Sig] := by
  simp only [steamDetect]
  rw [c2_since, c2_latest]
  simp [dictKeys, dictGet, groupBookKeys, bookEntries, steamMoves, firstLast,
    calcDelta, steamStrengthRaw, headMeta, sortBy, insertSorted, usBooks,
    c2Settings, c2Store, mkRow, c2Sig, prodBeqEval, qpMove, qpSumA, qpSumB,
    pyRoundOne, qpMin37, pyRoundThreeSevenths]

set_option maxHeartbeats 8000000 in
set_option maxRecDepth 100000 in
/-- The rapid-change detector is silent on `c2Store` under `c2Settings`. -/
theorem c2_rapid : rapidDetect c2Settings c2Store "ev2" 20 = [] := by
  simp only [rapidDetect]
  rw [c2_latest, c2_prev]
  simp [dictKeys, dictGet, rapidSortKey, headMeta, sortBy, insertSorted,
    usBooks, c2Settings, c2Store, mkRow, prodBeqEval, qpMove]

set_option maxHeartbeats 2000000 in
set_option maxRecDepth 100000 in
/-- The Pinnacle-divergence detector is silent on `c2Store` (no Pinnacle rows). -/
theorem c2_pinn : pinnacleDetect c2Settings c2Store "ev2" = [] := by
  simp only [pinnacleDetect, groupRowOf]
  rw [c2_latest]
  simp [dictGet, dictKeys, groupBookKeys, headMeta, usBooks, c2Settings,
    c2Store, mkRow, prodBeqEval]

set_option maxHeartbeats 8000000 in
set_option maxRecDepth 100000 in
/-- The reverse-line detector is silent on `c2Store` (no Pinnacle rows). -/
theorem c2_rev : reverseDetect c2Settings c2Store "ev2" 20 = [] := by
  simp only [reverseDetect]
  rw [c2_since, c2_latest]
  simp [dictKeys, dictGet, groupBookKeys, bookEntries, firstLast, calcDelta,
    headMeta, sortBy, insertSorted, usBooks, c2Settings, c2Store, mkRow,
    prodBeqEval]

set_option maxHeartbeats 2000000 in
set_option maxRecDepth 100000 in
/-- The exchange detector is silent on `c2Store` (no Betfair rows). -/
theorem c2_exch : exchangeDetect c2Settings c2Store "ev2" 20 = [] := by
  simp only [exchangeDetect]
  rw [c2_latest, c2_prev]
  simp [dictKeys, dictGet, headMeta, usBooks, betfairKey, c2Settings, c2Store,
    mkRow, prodBeqEval]

set_option maxHeartbeats 1000000 in
/-- On `c2Store` with an empty ledger the pipeline returns exactly the
rounded-strength 0.43 steam signal. -/
theorem c2_run_eq : pipelineRun c2Settings c2Store [] 20 20 = [c2Sig] := by
  simp only [pipelineRun, allDetectorSignals]
  rw [c2_events]
  simp only [List.flatMap_cons, List.flatMap_nil, List.append_nil]
  rw [c2_steam, c2_rapid, c2_pinn, c2_rev, c2_exch]
  simp [dedupSignals, dictKeys, sigGroupKey, pickBestSignal,
    wasAlertSentRecently, c2Sig, SignalType.value, c2Settings, prodBeqEval,
    qpCoolSub]

/-! ## Membership helpers for the mirror-side collapse -/

/-- Python `max(x, *xs, key)` returns an element of its input. -/
theorem listMaxBy_mem {α κ : Type} (gt : κ → κ → Bool) (key : α → κ)
    (x : α) (xs : List α) : listMaxBy gt key x xs ∈ x :: xs := by
  induction xs generalizing x with
  | nil => simp [listMaxBy]
  | cons y ys ih =>
    simp only [listMaxBy, List.foldl_cons]
    have h2 := ih (if gt (key y) (key x) then y else x)
    simp only [listMaxBy] at h2
    rcases List.mem_cons.mp h2 with h3 | h3
    · rw [h3]
      by_cases hgt : gt (key y) (key x)
      · rw [if_pos hgt]
        exact List.mem_cons_of_mem x (List.mem_cons_self y ys)
      · rw [if_neg hgt]
        exact List.mem_cons_self x (y :: ys)
    · exact List.mem_cons_of_mem x (List.mem_cons_of_mem y h3)

/-- The generic keeper of `_pick_best_signal` is one of the inputs. -/
theorem fallbackBest_mem (s : Signal) (rest : List Signal) :
    fallbackBest s rest ∈ s :: rest :=
  listMaxBy_mem _ _ s rest

/-- `_pick_best_signal` returns an element of its input list. -/
theorem pickBestSignal_mem (sigs : List Signal) (s : Signal)
    (h : pickBestSignal sigs = some s) : s ∈ sigs := by
  rcases sigs with _ | ⟨a, _ | ⟨b, rest⟩⟩
  · exact absurd h (by simp [pickBestSignal])
  · rw [pickBestSignal] at h
    obtain rfl := Option.some_inj.mp h
    exact List.mem_singleton_self a
  · simp only [pickBestSignal] at h
    obtain rfl := Option.some_inj.mp h
    split
    · split
      · next x heq => exact List.mem_of_find?_eq_some heq
      · exact fallbackBest_mem a (b :: rest)
    · split
      · split
        · next x heq => exact List.mem_of_find?_eq_some heq
        · exact fallbackBest_mem a (b :: rest)
      · split
        · split
          · next x heq => exact List.mem_of_find?_eq_some heq
          · exact fallbackBest_mem a (b :: rest)
        · split
          · exact listMaxBy_mem _ _ a (b :: rest)
          · exact fallbackBest_mem a (b :: rest)

/-- The mirror-side collapse only returns signals from its input. -/
theorem dedupSignals_subset (sigs : List Signal) (s : Signal)
    (h : s ∈ dedupSignals sigs) : s ∈ sigs := by
  rw [dedupSignals] at h
  rcases List.mem_flatMap.mp h with ⟨k, hk, hs⟩
  by_cases hlen : (sigs.filter (fun x => sigGroupKey x == k)).length ≤ 1
  · rw [if_pos hlen] at hs
    exact List.mem_of_mem_filter hs
  · rw [if_neg hlen] at hs
    cases hb : pickBestSignal (sigs.filter (fun x => sigGroupKey x == k)) with
    | none => rw [hb] at hs; simp at hs
    | some best =>
      rw [hb] at hs
      obtain rfl := List.mem_singleton.mp hs
      exact List.mem_of_mem_filter (pickBestSignal_mem _ _ hb)

/-! ## C1: mirror-side cooldown suppression -/

/-- C1 counterexample: with a steam-move alert for the Lakers side of the
`c1Store` spreads market recorded inside the cooldown window, the
pipeline still returns a steam-move signal for the opposite (Celtics)
side of the same (event, signal type, market): the cooldown consults only
the survivor's own outcome. -/
theorem C1_counterexample :
    wasAlertSentRecently c1Ledger 20 "ev1" "steam_move" "spreads" "Lakers"
      c1Settings.alert_cooldown_minutes = true ∧
    ∃ s ∈ pipelineRun c1Settings c1Store c1Ledger 20 20,
      s.event_id = "ev1" ∧ s.signal_type = SignalType.steam_move ∧
      s.market_key = "spreads" ∧ s.outcome_name = "Celtics" := by
  constructor
  · simp [wasAlertSentRecently, c1Ledger, c1Settings, qpCoolSub]
    norm_num
  · rw [c1_run_eq]
    exact ⟨c1Sig, List.mem_singleton_self c1Sig, rfl, rfl, rfl, rfl⟩

/-- C1 (amended): the cooldown dedup is per-outcome — the pipeline never
returns a signal whose full `(event_id, signal_type, market_key,
outcome_name)` matches an alert recorded within the cooldown window; the
mirror outcome is only suppressed when the collapse itself keeps the
previously alerted side. -/
theorem C1_theorem (st : Settings) (store : List Row) (ledger : List Alert)
    (now t : ℚ) (a : Alert) (ha : a ∈ ledger)
    (hrec : now - st.alert_cooldown_minutes ≤ a.sent_at)
    (s : Signal) (hs : s ∈ pipelineRun st store ledger now t) :
    ¬(s.event_id = a.event_id ∧ s.signal_type.value = a.alert_type ∧
      s.market_key = a.market_key ∧ s.outcome_name = a.outcome_name) := by
  rintro ⟨h1, h2, h3, h4⟩
  rw [pipelineRun] at hs
  have hp := (List.mem_filter.mp hs).2
  rw [Bool.not_eq_eq_eq_not, Bool.not_true, wasAlertSentRecently] at hp
  have hfa := List.any_eq_false.mp hp a ha
  simp [← h1, ← h2, ← h3, ← h4, hrec] at hfa

/-- C1 witness: the amended per-outcome suppression applied to the
concrete `c1Store` run — the returned signal cannot carry the alerted
Lakers outcome. -/
theorem C1_theorem_witness :
    ¬(c1Sig.event_id = "ev1" ∧ c1Sig.signal_type.value = "steam_move" ∧
      c1Sig.market_key = "spreads" ∧ c1Sig.outcome_name = "Lakers") :=
  C1_theorem c1Settings c1Store c1Ledger 20 20
    ⟨"ev1", "steam_move", "spreads", "Lakers", 20⟩
    (List.mem_singleton_self _)
    (by norm_num [c1Settings])
    c1Sig
    (by rw [c1_run_eq]; exact List.mem_singleton_self c1Sig)

/-! ## C2: rounding and the strength filter -/

/-- C2 counterexample: on `c2Store` the pipeline returns a steam signal
whose stored strength is the 2-decimal rounding 0.43 of the raw strength
3/7, although the raw strength is below the 0.43 minimum — the strength
filter is decided on the rounded value, so presentational rounding does
change which signals are returned. -/
theorem C2_counterexample :
    (∃ s ∈ pipelineRun c2Settings c2Store [] 20 20,
        s.signal_type = SignalType.steam_move ∧
        s.details.books_moved = some 3 ∧
        s.strength = pyRound 2 (steamStrengthRaw 3 7)) ∧
    ¬(steamStrengthRaw 3 7 ≥ c2Settings.min_signal_strength) := by
  constructor
  · rw [c2_run_eq]
    refine ⟨c2Sig, List.mem_singleton_self c2Sig, rfl, rfl, ?_⟩
    norm_num [c2Sig, steamStrengthRaw, pyRound]
  · norm_num [steamStrengthRaw, c2Settings]

/-- C2 (amended): delta-threshold comparisons inside the detectors use
unrounded values, but the pipeline's minimum-strength filter is applied
to the strength rounded at signal construction: every signal the
pipeline returns satisfies `min_signal_strength ≤ strength` for the
stored (rounded) strength field. -/
theorem C2_theorem (st : Settings) (store : List Row) (ledger : List Alert)
    (now t : ℚ) (s : Signal) (hs : s ∈ pipelineRun st store ledger now t) :
    st.min_signal_strength ≤ s.strength := by
  rw [pipelineRun] at hs
  have hd := (List.mem_filter.mp hs).1
  have hstrong := dedupSignals_subset _ _ hd
  have hf := (List.mem_filter.mp hstrong).2
  exact of_decide_eq_true hf

/-- C2 witness: the returned `c2Store` signal meets the 0.43 floor with
its rounded strength. -/
theorem C2_theorem_witness :
    c2Settings.min_signal_strength ≤ c2Sig.strength :=
  C2_theorem c2Settings c2Store [] 20 20 c2Sig
    (by rw [c2_run_eq]; exact List.mem_singleton_self c2Sig)

/-! ## C7: recording all returned alerts empties the repeated run -/

/-- C7: if every signal of a pipeline run is recorded in the SentAlert
ledger at the same wall-clock instant, an immediately repeated run over
the unchanged snapshot store returns the empty list. -/
theorem C7_theorem (st : Settings) (store : List Row) (ledger : List Alert)
    (now t : ℚ) (h : 0 ≤ st.alert_cooldown_minutes) :
    pipelineRun st store
      (ledger ++ (pipelineRun st store ledger now t).map
        (fun s => ⟨s.event_id, s.signal_type.value, s.market_key,
                   s.outcome_name, now⟩))
      now t = [] := by
  rw [pipelineRun, List.filter_eq_nil_iff]
  intro s hs
  rw [Bool.not_eq_true, Bool.not_eq_eq_eq_not, Bool.not_false,
    wasAlertSentRecently, List.any_append]
  by_cases hw : wasAlertSentRecently ledger now s.event_id s.signal_type.value
      s.market_key s.outcome_name st.alert_cooldown_minutes = true
  · rw [wasAlertSentRecently] at hw
    rw [hw]
    simp
  · rw [Bool.not_eq_true] at hw
    have hmem : s ∈ pipelineRun st store ledger now t := by
      rw [pipelineRun]
      exact List.mem_filter.mpr ⟨hs, by simp [hw]⟩
    have hsub : now - st.alert_cooldown_minutes ≤ now := sub_le_self now h
    rw [Bool.or_eq_true]
    refine Or.inr ?_
    rw [List.any_eq_true]
    exact ⟨_, List.mem_map_of_mem _ hmem, by simp [hsub]⟩

/-- C7 witness: recording the single returned signal of the `c1Store` run
empties the repeated run. -/
theorem C7_theorem_witness :
    pipelineRun c1Settings c1Store
      ([] ++ (pipelineRun c1Settings c1Store [] 20 20).map
        (fun s => ⟨s.event_id, s.signal_type.value, s.market_key,
                   s.outcome_name, 20⟩))
      20 20 = [] :=
  C7_theorem c1Settings c1Store [] 20 20 (by norm_num [c1Settings])

/-! ## C9: totality and membership of the tie-break -/

/-- C9: on every non-empty list `_pick_best_signal` succeeds and returns
an element of its input; on a singleton it returns that element. -/
theorem C9_theorem (sigs : List Signal) (h : sigs ≠ []) :
    ∃ s, pickBestSignal sigs = some s ∧ s ∈ sigs ∧
      ∀ x, sigs = [x] → s = x := by
  rcases sigs with _ | ⟨a, _ | ⟨b, rest⟩⟩
  · exact absurd rfl h
  · refine ⟨a, rfl, List.mem_singleton_self a, ?_⟩
    intro x hx
    cases hx
    rfl
  · obtain ⟨v, hv⟩ : ∃ v, pickBestSignal (a :: b :: rest) = some v := ⟨_, rfl⟩
    refine ⟨v, hv, pickBestSignal_mem _ _ hv, ?_⟩
    intro x hx
    simp at hx

/-- C9 witness: the tie-break applied to a concrete singleton list. -/
theorem C9_theorem_witness :
    ∃ s, pickBestSignal [c1Sig] = some s ∧ s ∈ [c1Sig] ∧
      ∀ x, [c1Sig] = [x] → s = x :=
  C9_theorem [c1Sig] (by simp)

/-! ## C5: the previous-snapshot query -/

/-- The running maximum visits only list elements. -/
theorem foldl_max_mem (a : ℚ) (l : List ℚ) : l.foldl max a ∈ a :: l := by
  induction l generalizing a with
  | nil => simp
  | cons b l ih =>
    simp only [List.foldl_cons]
    rcases List.mem_cons.mp (ih (max a b)) with h | h
    · rw [h]
      rcases max_choice a b with hm | hm
      · rw [hm]
        exact List.mem_cons_self a (b :: l)
      · rw [hm]
        exact List.mem_cons_of_mem a (List.mem_cons_self b l)
    · exact List.mem_cons_of_mem a (List.mem_cons_of_mem b h)

/-- The running maximum bounds the initial value and every element. -/
theorem le_foldl_max (a : ℚ) (l : List ℚ) : ∀ x ∈ a :: l, x ≤ l.foldl max a := by
  induction l generalizing a with
  | nil =>
    intro x hx
    simp only [List.mem_singleton] at hx
    simp [hx]
  | cons b l ih =>
    intro x hx
    simp only [List.foldl_cons]
    rcases List.mem_cons.mp hx with rfl | hx2
    · exact le_trans (le_max_left x b) (ih (max x b) _ (List.mem_cons_self _ _))
    · rcases List.mem_cons.mp hx2 with rfl | hx3
      · exact le_trans (le_max_right a x) (ih (max a x) _ (List.mem_cons_self _ _))
      · exact ih (max a b) x (List.mem_cons_of_mem _ hx3)

/-- `MAX(fetched_at)` returns a member of its input. -/
theorem maxTime_mem (l : List ℚ) (t : ℚ) (h : maxTime l = some t) : t ∈ l := by
  cases l with
  | nil => exact absurd h (by simp [maxTime])
  | cons a l =>
    rw [maxTime] at h
    obtain rfl := Option.some_inj.mp h
    exact foldl_max_mem a l

/-- `MAX(fetched_at)` bounds every member of its input. -/
theorem le_maxTime (l : List ℚ) (t x : ℚ) (h : maxTime l = some t) (hx : x ∈ l) :
    x ≤ t := by
  cases l with
  | nil => cases hx
  | cons a l =>
    rw [maxTime] at h
    obtain rfl := Option.some_inj.mp h
    exact le_foldl_max a l x hx

/-- The Boolean row filter inside `prevAt` captures exactly `priorRow`. -/
theorem prevAt_filter_iff (e : String) (before : ℚ) (bm mk oc : String) (r : Row) :
    (r.event_id == e && r.bookmaker_key == bm && r.market_key == mk &&
      r.outcome_name == oc && decide (r.fetched_at < before)) = true ↔
    priorRow e before bm mk oc r := by
  simp [priorRow, and_assoc]

/-- Membership in the combo slice of `get_previous_snapshots`, unfolded. -/
theorem mem_comboPrev (store : List Row) (e : String) (before : ℚ)
    (bm mk oc : String) (s : Row) :
    s ∈ comboPrev store e before bm mk oc ↔
      s ∈ store ∧ s.event_id = e ∧ s.bookmaker_key = bm ∧ s.market_key = mk ∧
      s.outcome_name = oc ∧
      prevAt store e before bm mk oc = some s.fetched_at := by
  constructor
  · intro h
    have h1 := List.mem_filter.mp h
    have h2 := List.mem_filter.mp h1.1
    have hcombo : s.bookmaker_key = bm ∧ s.market_key = mk ∧ s.outcome_name = oc := by
      have := h1.2
      simp only [Bool.and_eq_true, beq_iff_eq] at this
      exact ⟨this.1.1, this.1.2, this.2⟩
    have hev : s.event_id = e ∧
        prevAt store e before s.bookmaker_key s.market_key s.outcome_name =
          some s.fetched_at := by
      have := h2.2
      simp only [Bool.and_eq_true, beq_iff_eq] at this
      exact this
    refine ⟨h2.1, hev.1, hcombo.1, hcombo.2.1, hcombo.2.2, ?_⟩
    rw [← hcombo.1, ← hcombo.2.1, ← hcombo.2.2]
    exact hev.2
  · rintro ⟨hmem, hev, hbm, hmk, hoc, hprev⟩
    refine List.mem_filter.mpr ⟨List.mem_filter.mpr ⟨hmem, ?_⟩, ?_⟩
    · simp only [Bool.and_eq_true, beq_iff_eq]
      exact ⟨hev, by rw [hbm, hmk, hoc]; exact hprev⟩
    · simp only [Bool.and_eq_true, beq_iff_eq]
      exact ⟨⟨hbm, hmk⟩, hoc⟩

/-- A duplicate-free list whose members all equal one of its members is
that singleton. -/
theorem nodup_all_eq_singleton {α : Type} (l : List α) (a : α) (hnd : l.Nodup)
    (ha : a ∈ l) (hall : ∀ x ∈ l, x = a) : l = [a] := by
  cases l with
  | nil => cases ha
  | cons y ys =>
    have hy : y = a := hall y (List.mem_cons_self _ _)
    subst hy
    have hys : ys = [] := by
      cases ys with
      | nil => rfl
      | cons z zs =>
        have hz : z = y := hall z (List.mem_cons_of_mem y (List.mem_cons_self z zs))
        rw [List.nodup_cons] at hnd
        exact absurd (hz ▸ List.mem_cons_self z zs) hnd.1
    rw [hys]

/-- The rows of `comboPrev` form a sublist of the store. -/
theorem comboPrev_sublist (store : List Row) (e : String) (before : ℚ)
    (bm mk oc : String) :
    (comboPrev store e before bm mk oc).Sublist store :=
  List.Sublist.trans (List.filter_sublist _) (List.filter_sublist _)

/-- Membership in the prior-row set, unfolded. -/
theorem mem_priorFilter (store : List Row) (e : String) (before : ℚ)
    (bm mk oc : String) (r : Row) :
    r ∈ priorFilter store e before bm mk oc ↔
      r ∈ store ∧ priorRow e before bm mk oc r := by
  rw [priorFilter, List.mem_filter, prevAt_filter_iff]

/-- The inner maximum of `get_previous_snapshots` over the prior-row set. -/
theorem prevAt_eq (store : List Row) (e : String) (before : ℚ)
    (bm mk oc : String) :
    prevAt store e before bm mk oc =
      maxTime ((priorFilter store e before bm mk oc).map
        (fun r => r.fetched_at)) := rfl

/-- C5: under the snapshot-uniqueness invariant, `get_previous_snapshots`
returns exactly one row for every `(bookmaker, market, outcome)`
combination that has a row strictly before the cutoff — the row at the
maximum such `fetched_at` — and no row for combinations without one. -/
theorem C5_theorem (store : List Row) (e : String) (before : ℚ)
    (bm mk oc : String) (huniq : (store.map snapKey).Nodup) :
    ((∃ r ∈ store, priorRow e before bm mk oc r) →
        ∃ r, comboPrev store e before bm mk oc = [r] ∧
          priorRow e before bm mk oc r ∧
          ∀ r2 ∈ store, priorRow e before bm mk oc r2 →
            r2.fetched_at ≤ r.fetched_at) ∧
    ((¬∃ r ∈ store, priorRow e before bm mk oc r) →
        comboPrev store e before bm mk oc = []) := by
  constructor
  · rintro ⟨r0, hr0, hP0⟩
    have hr0f : r0 ∈ priorFilter store e before bm mk oc :=
      (mem_priorFilter store e before bm mk oc r0).mpr ⟨hr0, hP0⟩
    obtain ⟨tmax, htmax⟩ : ∃ t, maxTime ((priorFilter store e before bm mk oc).map
        (fun r => r.fetched_at)) = some t := by
      cases hL : (priorFilter store e before bm mk oc).map (fun r => r.fetched_at) with
      | nil =>
        rw [List.map_eq_nil_iff] at hL
        rw [hL] at hr0f
        cases hr0f
      | cons a l =>
        exact ⟨l.foldl max a, rfl⟩
    have hprevAt : prevAt store e before bm mk oc = some tmax := by
      rw [prevAt_eq]
      exact htmax
    obtain ⟨rmax, hrmaxf, hrmaxt⟩ := List.mem_map.mp (maxTime_mem _ _ htmax)
    have hrmaxS := ((mem_priorFilter store e before bm mk oc rmax).mp hrmaxf).1
    have hrmaxP := ((mem_priorFilter store e before bm mk oc rmax).mp hrmaxf).2
    have hrmaxC : rmax ∈ comboPrev store e before bm mk oc := by
      rw [mem_comboPrev]
      exact ⟨hrmaxS, hrmaxP.1, hrmaxP.2.1, hrmaxP.2.2.1, hrmaxP.2.2.2.1,
        by rw [hprevAt, hrmaxt]⟩
    have hall : ∀ x ∈ comboPrev store e before bm mk oc, x = rmax := by
      intro x hx
      rw [mem_comboPrev] at hx
      obtain ⟨hxs, hxe, hxb, hxm, hxo, hxp⟩ := hx
      rw [hprevAt] at hxp
      have hxt : x.fetched_at = tmax := (Option.some_inj.mp hxp).symm
      have hkey : snapKey x = snapKey rmax := by
        rw [snapKey, snapKey, hxe, hxb, hxm, hxo, hxt, hrmaxP.1, hrmaxP.2.1,
          hrmaxP.2.2.1, hrmaxP.2.2.2.1, hrmaxt]
      exact List.inj_on_of_nodup_map huniq hxs hrmaxS hkey
    have hnd : (comboPrev store e before bm mk oc).Nodup :=
      List.Nodup.of_map snapKey
        (List.Nodup.sublist
          (List.Sublist.map snapKey (comboPrev_sublist store e before bm mk oc))
          huniq)
    refine ⟨rmax, nodup_all_eq_singleton _ _ hnd hrmaxC hall, hrmaxP, ?_⟩
    intro r2 hr2 hP2
    have hmem2 : r2.fetched_at ∈ (priorFilter store e before bm mk oc).map
        (fun r => r.fetched_at) :=
      List.mem_map_of_mem _
        ((mem_priorFilter store e before bm mk oc r2).mpr ⟨hr2, hP2⟩)
    rw [hrmaxt]
    exact le_maxTime _ _ _ htmax hmem2
  · intro hno
    rw [List.eq_nil_iff_forall_not_mem]
    intro x hx
    rw [mem_comboPrev] at hx
    obtain ⟨hxs, hxe, hxb, hxm, hxo, hxp⟩ := hx
    rw [prevAt_eq] at hxp
    obtain ⟨r, hrf, hrt⟩ := List.mem_map.mp (maxTime_mem _ _ hxp)
    have := (mem_priorFilter store e before bm mk oc r).mp hrf
    exact hno ⟨r, this.1, this.2⟩

/-- C5 witness: on the concrete `c1Store` the draftkings/spreads/Celtics
combination has prior rows before t=20, so exactly one row — the t=0 one
at the maximal prior `fetched_at` — is returned. -/
theorem C5_theorem_witness :
    ∃ r, comboPrev c1Store "ev1" 20 "draftkings" "spreads" "Celtics" = [r] ∧
      priorRow "ev1" 20 "draftkings" "spreads" "Celtics" r ∧
      ∀ r2 ∈ c1Store, priorRow "ev1" 20 "draftkings" "spreads" "Celtics" r2 →
        r2.fetched_at ≤ r.fetched_at :=
  (C5_theorem c1Store "ev1" 20 "draftkings" "spreads" "Celtics" (by decide)).1
    ⟨mkRow "ev1" "draftkings" "spreads" "Celtics" (-110) (some 4) 0,
      by simp [c1Store], rfl, rfl, rfl, rfl, by norm_num [mkRow]⟩

/-! ## C8: the Pinnacle-divergence emission contract -/

theorem strLowerOver : (strLower "Over" == "over") = true := by
  simp [strLower]

theorem strLowerUnder : (strLower "Under" == "over") = false := by
  simp [strLower]

theorem mem_dictKeys_of_mem_aux {α κ : Type} [BEq κ] [LawfulBEq κ] (f : α → κ) :
    ∀ (n : ℕ) (l : List α), l.length ≤ n → ∀ a ∈ l, f a ∈ dictKeys f l := by
  intro n
  induction n with
  | zero =>
    intro l hl a ha
    rw [Nat.le_zero, List.length_eq_zero] at hl
    subst hl
    cases ha
  | succ n ih =>
    intro l hl a ha
    cases l with
    | nil => cases ha
    | cons r rs =>
      rw [dictKeys]
      rcases List.mem_cons.mp ha with rfl | ha'
      · exact List.mem_cons_self _ _
      · by_cases hfe : f a == f r
        · rw [List.mem_cons]
          exact Or.inl (eq_of_beq hfe)
        · have hrs : rs.length ≤ n := by
            rw [List.length_cons] at hl
            omega
          refine List.mem_cons_of_mem _ (ih _ ?_ a ?_)
          · exact le_trans (List.length_filter_le _ _) hrs
          · exact List.mem_filter.mpr ⟨ha', by simp [hfe]⟩

/-- A member's key is among the dict keys. -/
theorem mem_dictKeys_of_mem {α κ : Type} [BEq κ] [LawfulBEq κ] (f : α → κ)
    (l : List α) (a : α) (ha : a ∈ l) : f a ∈ dictKeys f l :=
  mem_dictKeys_of_mem_aux f l.length l le_rfl a ha

/-- A successful dict lookup returns a member carrying the looked-up key. -/
theorem dictGet_mem {α κ : Type} [BEq κ] [LawfulBEq κ] (f : α → κ)
    (rows : List α) (k : κ) (r : α) (h : dictGet f rows k = some r) :
    r ∈ rows ∧ f r = k := by
  rw [dictGet] at h
  have hm : r ∈ rows.filter (fun x => f x == k) := List.mem_of_mem_getLast? h
  rcases List.mem_filter.mp hm with ⟨h1, h2⟩
  exact ⟨h1, eq_of_beq h2⟩

/-- What a successful market-group bookmaker lookup guarantees about the
returned row. -/
theorem groupRowOf_spec (store : List Row) (e mk oc bm : String) (r : Row)
    (h : groupRowOf store e mk oc bm = some r) :
    r ∈ store ∧ r ∈ getLatestSnapshots store e ∧ r.market_key = mk ∧
      r.outcome_name = oc ∧ r.bookmaker_key = bm := by
  rw [groupRowOf] at h
  obtain ⟨hm, hbk⟩ := dictGet_mem _ _ _ _ h
  rcases List.mem_filter.mp hm with ⟨h1, h2⟩
  simp only [Bool.and_eq_true, beq_iff_eq] at h2
  have h0 : r ∈ store := by
    have h1' := h1
    rw [getLatestSnapshots] at h1'
    exact List.mem_of_mem_filter h1'
  exact ⟨h0, h1, h2.1, h2.2, hbk⟩

/-- The inner Pinnacle-divergence loop stamps the signal with its own
market, outcome and US bookmaker. -/
theorem pinnacleSignalFor_fields (st : Settings) (e : String)
    (meta : String × String × String) (mk oc bm : String) (usRow pinRow : Row)
    (s : Signal) (h : pinnacleSignalFor st e meta mk oc bm usRow pinRow = some s) :
    s.market_key = mk ∧ s.outcome_name = oc ∧ s.details.us_book = some bm := by
  unfold pinnacleSignalFor at h
  split at h
  · exact Option.noConfusion h
  · split at h
    · exact Option.noConfusion h
    · split at h
      · exact Option.noConfusion h
      · injection h with h'
        subst h'
        exact ⟨rfl, rfl, rfl⟩

/-- The inner Pinnacle-divergence loop emits a signal for a US bookmaker
row against the Pinnacle row iff the divergence reaches the market's
threshold and the US line is better per the §4.4.6 polarity table —
stated with the spec-side `specThreshold`, `specDelta`, `specBetter`,
under the data-model invariant that `point` is null exactly on h2h rows. -/
theorem pinnacleSignalFor_some_iff (st : Settings) (e : String)
    (meta : String × String × String) (mk oc bm : String) (usRow pinRow : Row)
    (husp : usRow.point = none ↔ mk = "h2h")
    (hpinp : pinRow.point = none ↔ mk = "h2h")
    (hmk3 : mk = "h2h" ∨ mk = "spreads" ∨ mk = "totals")
    (hocT : mk = "totals" → oc = "Over" ∨ oc = "Under") :
    (∃ s, pinnacleSignalFor st e meta mk oc bm usRow pinRow = some s) ↔
      (specThreshold st mk ≤ specDelta mk usRow pinRow ∧
        specBetter mk oc usRow pinRow) := by
  rcases hmk3 with hm | hm | hm
  · subst hm
    have hcomp : pinnacleComparison st "h2h" usRow pinRow =
        some (usRow.price, pinRow.price,
          |american_to_implied_prob usRow.price -
            american_to_implied_prob pinRow.price|,
          st.pinnacle_ml_prob_threshold) := by
      simp [pinnacleComparison]
    have hbet : usHasBetterValue "h2h" oc usRow.price pinRow.price =
        decide (pinRow.price < usRow.price) := by
      simp [usHasBetterValue]
    have hth : specThreshold st "h2h" = st.pinnacle_ml_prob_threshold := by
      simp [specThreshold]
    have hde : specDelta "h2h" usRow pinRow =
        |american_to_implied_prob usRow.price -
          american_to_implied_prob pinRow.price| := by
      simp [specDelta]
    have hbe : specBetter "h2h" oc usRow pinRow =
        (pinRow.price < usRow.price) := by
      simp [specBetter]
    simp only [pinnacleSignalFor, hcomp, hbet, hth, hde, hbe]
    constructor
    · rintro ⟨s, hs⟩
      split at hs
      · exact Option.noConfusion hs
      · split at hs
        · exact Option.noConfusion hs
        · rename_i h1 h2
          refine ⟨not_lt.mp h1, ?_⟩
          simpa using h2
    · rintro ⟨hτ, hb⟩
      rw [← Option.isSome_iff_exists]
      rw [if_neg (not_lt.mpr hτ), if_neg (by simp [hb])]
      rfl
  · subst hm
    have hus : usRow.point ≠ none := fun h => absurd (husp.mp h) (by simp)
    have hpin : pinRow.point ≠ none := fun h => absurd (hpinp.mp h) (by simp)
    obtain ⟨up, hup⟩ := Option.ne_none_iff_exists'.mp hus
    obtain ⟨pp, hpp⟩ := Option.ne_none_iff_exists'.mp hpin
    have hcomp : pinnacleComparison st "spreads" usRow pinRow =
        some (up, pp, |up - pp|, st.pinnacle_spread_threshold) := by
      simp [pinnacleComparison, hup, hpp]
    have hbet : usHasBetterValue "spreads" oc up pp = decide (pp < up) := by
      simp [usHasBetterValue]
    have hth : specThreshold st "spreads" = st.pinnacle_spread_threshold := by
      simp [specThreshold]
    have hde : specDelta "spreads" usRow pinRow = |up - pp| := by
      simp [specDelta, hup, hpp]
    have hbe : specBetter "spreads" oc usRow pinRow = (pp < up) := by
      simp [specBetter, hup, hpp]
    simp only [pinnacleSignalFor, hcomp, hbet, hth, hde, hbe]
    constructor
    · rintro ⟨s, hs⟩
      split at hs
      · exact Option.noConfusion hs
      · split at hs
        · exact Option.noConfusion hs
        · rename_i h1 h2
          refine ⟨not_lt.mp h1, ?_⟩
          simpa using h2
    · rintro ⟨hτ, hb⟩
      rw [← Option.isSome_iff_exists]
      rw [if_neg (not_lt.mpr hτ), if_neg (by simp [hb])]
      rfl
  · subst hm
    have hus : usRow.point ≠ none := fun h => absurd (husp.mp h) (by simp)
    have hpin : pinRow.point ≠ none := fun h => absurd (hpinp.mp h) (by simp)
    obtain ⟨up, hup⟩ := Option.ne_none_iff_exists'.mp hus
    obtain ⟨pp, hpp⟩ := Option.ne_none_iff_exists'.mp hpin
    have hcomp : pinnacleComparison st "totals" usRow pinRow =
        some (up, pp, |up - pp|, st.pinnacle_spread_threshold) := by
      simp [pinnacleComparison, hup, hpp]
    have hth : specThreshold st "totals" = st.pinnacle_spread_threshold := by
      simp [specThreshold]
    have hde : specDelta "totals" usRow pinRow = |up - pp| := by
      simp [specDelta, hup, hpp]
    rcases hocT rfl with hoc | hoc
    · subst hoc
      have hbet : usHasBetterValue "totals" "Over" up pp = decide (up < pp) := by
        simp [usHasBetterValue, strLower]
      have hbe : specBetter "totals" "Over" usRow pinRow = (up < pp) := by
        simp [specBetter, hup, hpp]
      simp only [pinnacleSignalFor, hcomp, hbet, hth, hde, hbe]
      constructor
      · rintro ⟨s, hs⟩
        split at hs
        · exact Option.noConfusion hs
        · split at hs
          · exact Option.noConfusion hs
          · rename_i h1 h2
            refine ⟨not_lt.mp h1, ?_⟩
            simpa using h2
      · rintro ⟨hτ, hb⟩
        rw [← Option.isSome_iff_exists]
        rw [if_neg (not_lt.mpr hτ), if_neg (by simp [hb])]
        rfl
    · subst hoc
      have hbet : usHasBetterValue "totals" "Under" up pp = decide (pp < up) := by
        simp [usHasBetterValue, strLower]
      have hbe : specBetter "totals" "Under" usRow pinRow = (pp < up) := by
        simp [specBetter, hup, hpp]
      simp only [pinnacleSignalFor, hcomp, hbet, hth, hde, hbe]
      constructor
      · rintro ⟨s, hs⟩
        split at hs
        · exact Option.noConfusion hs
        · split at hs
          · exact Option.noConfusion hs
          · rename_i h1 h2
            refine ⟨not_lt.mp h1, ?_⟩
            simpa using h2
      · rintro ⟨hτ, hb⟩
        rw [← Option.isSome_iff_exists]
        rw [if_neg (not_lt.mpr hτ), if_neg (by simp [hb])]
        rfl

/-- C8: the Pinnacle-divergence detector emits a signal for a
(US book, market, outcome) group iff the group's latest snapshots contain
a Pinnacle row and a row of that US book, the divergence between them
reaches the market's threshold (implied-probability difference against
`pinnacle_ml_prob_threshold` on h2h, absolute point difference against
`pinnacle_spread_threshold` on spreads/totals), and the US line is better
for the bettor per the polarity rule (h2h: higher price; spreads: higher
point; totals Over: lower point; totals Under: higher point) — under the
data-model invariants that `point` is null exactly on h2h rows, the
market is one of h2h/spreads/totals, and totals outcomes are Over/Under. -/
theorem C8_theorem (st : Settings) (store : List Row) (e mk oc bm : String)
    (hpt : ∀ r ∈ store, (r.point = none ↔ r.market_key = "h2h"))
    (hmk3 : mk = "h2h" ∨ mk = "spreads" ∨ mk = "totals")
    (hocT : mk = "totals" → oc = "Over" ∨ oc = "Under")
    (hbm : bm ∈ usBooks) :
    (∃ s ∈ pinnacleDetect st store e,
        s.market_key = mk ∧ s.outcome_name = oc ∧ s.details.us_book = some bm) ↔
      ∃ pinRow usRow,
        groupRowOf store e mk oc "pinnacle" = some pinRow ∧
        groupRowOf store e mk oc bm = some usRow ∧
        specThreshold st mk ≤ specDelta mk usRow pinRow ∧
        specBetter mk oc usRow pinRow := by
  constructor
  · rintro ⟨s, hs, hfm, hfo, hfb⟩
    simp only [pinnacleDetect] at hs
    split at hs
    · simp at hs
    · rw [List.mem_flatMap] at hs
      obtain ⟨k, hk, hsk⟩ := hs
      cases hp : groupRowOf store e k.1 k.2 "pinnacle" with
      | none => rw [hp] at hsk; simp at hsk
      | some pinRow =>
        rw [hp] at hsk
        rw [List.mem_filterMap] at hsk
        obtain ⟨bm', hbm', hG⟩ := hsk
        split at hG
        · exact Option.noConfusion hG
        · cases hu : groupRowOf store e k.1 k.2 bm' with
          | none => rw [hu] at hG; exact Option.noConfusion hG
          | some usRow =>
            rw [hu] at hG
            obtain ⟨hm1, hm2, hm3⟩ := pinnacleSignalFor_fields _ _ _ _ _ _ _ _ _ hG
            have hk1 : k.1 = mk := by rw [← hm1]; exact hfm
            have hk2 : k.2 = oc := by rw [← hm2]; exact hfo
            have hbe : bm' = bm := by
              have := hm3.symm.trans hfb
              exact Option.some.inj this
            rw [hk1, hk2] at hp hu hG
            rw [hbe] at hu hG
            obtain ⟨hpss, hpinlat, hpinm, hpino, hpinb⟩ :=
              groupRowOf_spec _ _ _ _ _ _ hp
            obtain ⟨huss, huslat, husm, huso, husb⟩ :=
              groupRowOf_spec _ _ _ _ _ _ hu
            have h1 : usRow.point = none ↔ mk = "h2h" := by
              rw [← husm]; exact hpt usRow huss
            have h2 : pinRow.point = none ↔ mk = "h2h" := by
              rw [← hpinm]; exact hpt pinRow hpss
            have hcond :=
              (pinnacleSignalFor_some_iff st e _ mk oc bm usRow pinRow
                h1 h2 hmk3 hocT).mp ⟨s, hG⟩
            exact ⟨pinRow, usRow, hp, hu, hcond.1, hcond.2⟩
  · rintro ⟨pinRow, usRow, hp, hu, hδ, hpol⟩
    obtain ⟨hpss, hpinlat, hpinm, hpino, hpinb⟩ := groupRowOf_spec _ _ _ _ _ _ hp
    obtain ⟨huss, huslat, husm, huso, husb⟩ := groupRowOf_spec _ _ _ _ _ _ hu
    have h1 : usRow.point = none ↔ mk = "h2h" := by
      rw [← husm]; exact hpt usRow huss
    have h2 : pinRow.point = none ↔ mk = "h2h" := by
      rw [← hpinm]; exact hpt pinRow hpss
    obtain ⟨s, hsf⟩ :=
      (pinnacleSignalFor_some_iff st e (headMeta (getLatestSnapshots store e))
        mk oc bm usRow pinRow h1 h2 hmk3 hocT).mpr ⟨hδ, hpol⟩
    obtain ⟨hm1, hm2, hm3⟩ := pinnacleSignalFor_fields _ _ _ _ _ _ _ _ _ hsf
    refine ⟨s, ?_, hm1, hm2, hm3⟩
    simp only [pinnacleDetect]
    have hne : (getLatestSnapshots store e).isEmpty = false := by
      cases hl : getLatestSnapshots store e with
      | nil => rw [hl] at hpinlat; cases hpinlat
      | cons a l => rfl
    rw [if_neg (by rw [hne]; exact Bool.false_ne_true)]
    rw [List.mem_flatMap]
    have hkmem : ((mk, oc) : String × String) ∈
        dictKeys (fun r : Row => (r.market_key, r.outcome_name))
          (getLatestSnapshots store e) := by
      have hmem := mem_dictKeys_of_mem
        (fun r : Row => (r.market_key, r.outcome_name)) _ pinRow hpinlat
      have hkey : ((fun r : Row => (r.market_key, r.outcome_name)) pinRow) =
          ((mk, oc) : String × String) := by
        simp [hpinm, hpino]
      rw [hkey] at hmem
      exact hmem
    refine ⟨(mk, oc), hkmem, ?_⟩
    have hp' : groupRowOf store e ((mk, oc) : String × String).1
        ((mk, oc) : String × String).2 "pinnacle" = some pinRow := hp
    rw [hp']
    rw [List.mem_filterMap]
    refine ⟨bm, ?_, ?_⟩
    · have hfmem : usRow ∈ (getLatestSnapshots store e).filter
          (fun r => r.market_key == mk && r.outcome_name == oc) :=
        List.mem_filter.mpr ⟨huslat, by simp [husm, huso]⟩
      have hmem2 := mem_dictKeys_of_mem
        (fun r : Row => r.bookmaker_key) _ usRow hfmem
      have hkey2 : ((fun r : Row => r.bookmaker_key) usRow) = bm := by
        simp [husb]
      rw [hkey2] at hmem2
      exact hmem2
    · have hc : usBooks.contains bm = true := List.elem_iff.mpr hbm
      rw [if_neg (by rw [hc]; simp)]
      have hu' : groupRowOf store e ((mk, oc) : String × String).1
          ((mk, oc) : String × String).2 bm = some usRow := hu
      rw [hu']
      exact hsf

/-- C8 witness: on the concrete `c8Store` the iff holds at
(betmgm, h2h, Lakers), its invariant hypotheses being checked row by row. -/
theorem C8_theorem_witness :
    (∀ r ∈ c8Store, (r.point = none ↔ r.market_key = "h2h")) ∧
    ((∃ s ∈ pinnacleDetect defaultSettings c8Store "ev8",
        s.market_key = "h2h" ∧ s.outcome_name = "Lakers" ∧
          s.details.us_book = some "betmgm") ↔
      ∃ pinRow usRow,
        groupRowOf c8Store "ev8" "h2h" "Lakers" "pinnacle" = some pinRow ∧
        groupRowOf c8Store "ev8" "h2h" "Lakers" "betmgm" = some usRow ∧
        specThreshold defaultSettings "h2h" ≤ specDelta "h2h" usRow pinRow ∧
        specBetter "h2h" "Lakers" usRow pinRow) :=
  ⟨by intro r hr; simp only [c8Store, mkRow, List.mem_cons, List.not_mem_nil,
      or_false] at hr; rcases hr with rfl | rfl | rfl | rfl <;> simp,
   C8_theorem defaultSettings c8Store "ev8" "h2h" "Lakers" "betmgm"
     (by intro r hr; simp only [c8Store, mkRow, List.mem_cons, List.not_mem_nil,
        or_false] at hr; rcases hr with rfl | rfl | rfl | rfl <;> simp)
     (Or.inl rfl)
     (by intro h; simp at h)
     (by simp [usBooks])⟩

end SharpSeeker
